import Mathlib

/-!
Verification of the CrowdPay payment reconciliation engine.

This file gives a shallow embedding of the engine found in
backend/services/invoice_polling.py, backend/services/lnbits.py,
backend/services/lightning.py, backend/routes/contributions.py and
backend/config.py, together with theorems settling the frozen claims
about it.

Modelling conventions:
- The persistent store (Supabase tables contributions and campaigns) is a
  pair of lists of rows; `.eq(col, v).execute()` lookups are first-match
  searches, `.single().execute()` lookups succeed exactly when one row
  matches, and `.update().eq(col, v)` rewrites every matching row.
- Python floats in the money path (Contribution.amount, platform fee
  arithmetic) are modelled at two levels.  The engine-level operations use
  exact rationals, which is sound for the claims about crediting exactly
  once and about non-integrality.  The claim about exactness of the fee
  arithmetic itself is settled against an explicit IEEE 754 binary64 model:
  `fl` below implements round-to-nearest, ties-to-even over the normal
  range, and `fl_div`/`fl_mul`/`fl_sub` are the correctly rounded double
  operations CPython performs.
- Wall-clock timestamps are an opaque string parameter `now`; the watcher
  timeout comparison is a boolean input `timed_out` to its step function.
- One iteration of the watcher loop body of
  InvoicePollingService._poll_payment is one atomic step; thread
  interleaving below that granularity is out of scope.
- The external HMAC-SHA256 primitive (Python hmac and hashlib) is an
  explicit function parameter; the hex and base64 encodings of its digest
  are implemented concretely.
- Logging calls have no effect and are dropped, except that the webhook
  route records whether it warned about a bad signature, since one claim
  is about exactly that behaviour.
-/

namespace CrowdPay

/-! ## Store rows -/

/-- A row of the contributions table, restricted to the columns the engine
reads or writes.  `payment_hash` models the `bitnob_payment_hash` column
(the legacy name the code queries by). -/
structure ContributionRow where
  id : String
  campaign_id : String
  amount : Rat
  payment_status : String
  payment_hash : Option String
  transaction_id : Option String
  paid_at : Option String
  deriving DecidableEq, Repr

/-- A row of the campaigns table, restricted to the columns the engine touches. -/
structure CampaignRow where
  id : String
  current_amount : Rat
  deriving DecidableEq, Repr

/-- `.single().execute()`: succeeds exactly when one row matches the filter. -/
def singleRow {α : Type} (p : α → Bool) (l : List α) : Option α :=
  match l.filter p with
  | [a] => some a
  | _ => none

/-- `.update(data).eq(col, v).execute()`: rewrite every matching row. -/
def updateRows {α : Type} (p : α → Bool) (f : α → α) (l : List α) : List α :=
  l.map fun a => if p a then f a else a

/-! ## Engine state

`pollingThreads` models the keys of `InvoicePollingService.polling_threads`
(one live watcher thread per key) and `stopFlags` models
`InvoicePollingService.stop_flags` (one `threading.Event` per key, `true`
when set). -/

structure Engine where
  contributions : List ContributionRow
  campaigns : List CampaignRow
  pollingThreads : List String
  stopFlags : List (String × Bool)
  deriving DecidableEq, Repr

/-- Value of the stop flag event for `cid` (an unset or absent event reads
as `false`). -/
def flag_of (e : Engine) (cid : String) : Bool :=
  match e.stopFlags.find? (fun p => p.1 == cid) with
  | some p => p.2
  | none => false

/-- `Config.PLATFORM_FEE_PERCENT` with its default value `2.5`. -/
def PLATFORM_FEE_PERCENT : Rat := 5 / 2

/-- `Config.POLLING_INTERVAL` default. -/
def POLLING_INTERVAL : Nat := 30

/-- `Config.POLLING_TIMEOUT` default. -/
def POLLING_TIMEOUT : Nat := 3600

/-- `platform_fee = contribution_amount * (fee_percent / 100)` as computed in
`InvoicePollingService._update_campaign_amount` and inlined in
`routes/contributions.py`. -/
def platform_fee (fee_percent amount : Rat) : Rat :=
  amount * (fee_percent / 100)

/-- `creator_amount = contribution_amount - platform_fee`. -/
def creator_amount (fee_percent amount : Rat) : Rat :=
  amount - platform_fee fee_percent amount

/-! ## IEEE 754 binary64 model of the fee arithmetic

CPython floats are binary64 doubles and each arithmetic operation is
correctly rounded (round-to-nearest, ties-to-even).  The functions below
implement that rounding over exact rationals, for arguments in the normal
finite range (subnormals and overflow, far outside any settlement amount,
are not modelled).  All internal arithmetic is on `Nat`/`Int` and
`Rat.divInt`, so concrete instances evaluate by kernel reduction. -/

/-- Number of binary digits of `n` (`0` for `0`), with explicit fuel so
that it reduces; `n` itself is always enough fuel. -/
def nbits_fuel : Nat → Nat → Nat
  | 0, _ => 0
  | fuel + 1, n => if n ≤ 1 then n else nbits_fuel fuel (n / 2) + 1

/-- Number of binary digits of `n`: `2 ^ (nbits n - 1) ≤ n < 2 ^ nbits n`
for positive `n`. -/
def nbits (n : Nat) : Nat := nbits_fuel n n

/-- Whether `2 ^ e ≤ n / d`, by cross-multiplication. -/
def le_pow2 (e : ℤ) (n d : Nat) : Bool :=
  if 0 ≤ e then d * 2 ^ e.toNat ≤ n else d ≤ n * 2 ^ (-e).toNat

/-- The binary exponent of the positive rational `n / d`: the unique `e`
with `2 ^ e ≤ n / d < 2 ^ (e + 1)`. -/
def qexp (n d : Nat) : ℤ :=
  let e0 : ℤ := (nbits n : ℤ) - (nbits d : ℤ)
  if le_pow2 e0 n d then e0 else e0 - 1

/-- Round `(n / d) * 2 ^ (52 - e)` (a value in `[2 ^ 52, 2 ^ 53)` when `e`
is the binary exponent of `n / d`) to the nearest integer, ties to even:
the 53-bit significand of the rounded double. -/
def round_sig (n d : Nat) (e : ℤ) : Nat :=
  let shift : ℤ := 52 - e
  let N := if 0 ≤ shift then n * 2 ^ shift.toNat else n
  let D := if 0 ≤ shift then d else d * 2 ^ (-shift).toNat
  let q0 := N / D
  let r := N % D
  if 2 * r < D then q0
  else if D < 2 * r then q0 + 1
  else if q0 % 2 = 0 then q0 else q0 + 1

/-- Round the positive rational `n / d` to the nearest binary64 value. -/
def fl_pos (n d : Nat) : Rat :=
  let e := qexp n d
  let m := round_sig n d e
  if 0 ≤ e - 52 then Rat.divInt ((m : ℤ) * 2 ^ (e - 52).toNat) 1
  else Rat.divInt (m : ℤ) (2 ^ (52 - e).toNat)

/-- Round a rational to the nearest binary64 value (round-to-nearest,
ties-to-even; normal range). -/
def fl (q : Rat) : Rat :=
  if q.num = 0 then 0
  else if 0 < q.num then fl_pos q.num.toNat q.den
  else -(fl_pos (-q.num).toNat q.den)

/-- Correctly rounded double division `a / b`: the exact quotient
`(a.num * b.den) / (a.den * b.num)`, rounded. -/
def fl_div (a b : Rat) : Rat :=
  fl (Rat.divInt (a.num * (b.den : ℤ)) ((a.den : ℤ) * b.num))

/-- Correctly rounded double multiplication `a * b`. -/
def fl_mul (a b : Rat) : Rat :=
  fl (Rat.divInt (a.num * b.num) ((a.den : ℤ) * b.den))

/-- Correctly rounded double subtraction `a - b`. -/
def fl_sub (a b : Rat) : Rat :=
  fl (Rat.divInt (a.num * (b.den : ℤ) - b.num * (a.den : ℤ)) ((a.den : ℤ) * b.den))

/-- The platform fee as the program's float arithmetic actually computes
it: `contribution_amount * (Config.PLATFORM_FEE_PERCENT / 100)` in
binary64, each operation correctly rounded (invoice_polling.py:234-235).
`fee_percent` and `amount` are assumed exactly representable, as
`float("2.5")` and every integer amount below `2 ^ 53` are. -/
def platform_fee_float (fee_percent amount : Rat) : Rat :=
  fl_mul amount (fl_div fee_percent 100)

/-- `creator_amount = contribution_amount - platform_fee` in binary64
(invoice_polling.py:236). -/
def creator_amount_float (fee_percent amount : Rat) : Rat :=
  fl_sub amount (platform_fee_float fee_percent amount)

/-! ## LNbits client: check_invoice_status -/

/-- The JSON body LNbits returns for `GET /api/v1/payments/...`, restricted
to the fields `LNbitsService.check_invoice_status` reads.  `none` models an
absent key; `data.get('expired')` truthiness is `some true`. -/
structure LNbitsPaymentResponse where
  paid : Option Bool
  pending : Option Bool
  expired : Option Bool
  preimage : Option String
  deriving DecidableEq, Repr

/-- The dictionary `check_invoice_status` returns, restricted to the fields
its callers read. -/
structure InvoiceStatus where
  paid : Bool
  status : String
  preimage : Option String
  deriving DecidableEq, Repr

/-- `LNbitsService.check_invoice_status`, the status-derivation logic on a
successfully parsed response body. -/
def check_invoice_status (d : LNbitsPaymentResponse) : InvoiceStatus :=
  let is_paid := d.paid.getD false
  let status :=
    if is_paid then "paid"
    else if d.pending.getD true then "pending"
    else if d.expired.getD false then "expired"
    else "pending"
  { paid := is_paid, status := status, preimage := d.preimage }

/-! ## Store update helpers of InvoicePollingService -/

/-- `InvoicePollingService._already_paid`: single-row lookup by payment hash,
`true` exactly when the row exists and is marked paid. -/
def already_paid (payment_hash : String) (e : Engine) : Bool :=
  match singleRow (fun r => r.payment_hash == some payment_hash) e.contributions with
  | some r => r.payment_status == "paid"
  | none => false

/-- `InvoicePollingService._update_contribution_status_by_payment_hash`.
`paid_at` and `preimage` are written only when provided, as in the source. -/
def update_contribution_status_by_payment_hash
    (payment_hash status : String) (paid_at preimage : Option String)
    (e : Engine) : Engine :=
  let write : ContributionRow → ContributionRow := fun r =>
    { r with payment_status := status,
             paid_at := match paid_at with
                        | some t => some t
                        | none => r.paid_at,
             transaction_id := match preimage with
                               | some pre => some pre
                               | none => r.transaction_id }
  let rows := updateRows (fun r => r.payment_hash == some payment_hash) write e.contributions
  { e with contributions := rows }

/-- `InvoicePollingService._update_contribution_status_by_id`. -/
def update_contribution_status_by_id (cid status : String) (e : Engine) : Engine :=
  let rows :=
    updateRows (fun r => r.id == cid) (fun r => { r with payment_status := status }) e.contributions
  { e with contributions := rows }

/-- `InvoicePollingService._update_campaign_amount`: read the contribution
amount and the campaign total, apply the fee formula, write the new total. -/
def update_campaign_amount (fee_percent : Rat) (contribution_id campaign_id : String)
    (e : Engine) : Engine :=
  match singleRow (fun r => r.id == contribution_id) e.contributions with
  | none => e
  | some contrib =>
    match singleRow (fun k => k.id == campaign_id) e.campaigns with
    | none => e
    | some campaign =>
      let new_amount := campaign.current_amount + creator_amount fee_percent contrib.amount
      let rows :=
        updateRows (fun k => k.id == campaign_id)
          (fun k => { k with current_amount := new_amount }) e.campaigns
      { e with campaigns := rows }

/-! ## Watcher registry operations -/

/-- `InvoicePollingService.start_polling`: a no-op when a watcher thread is
already registered for the contribution, otherwise registers a fresh unset
stop flag and a new watcher thread. -/
def start_polling (contribution_id payment_hash campaign_id : String) (e : Engine) : Engine :=
  if e.pollingThreads.contains contribution_id then e
  else
    let flags := (contribution_id, false) :: e.stopFlags.filter (fun p => !(p.1 == contribution_id))
    { e with stopFlags := flags, pollingThreads := contribution_id :: e.pollingThreads }

/-- `InvoicePollingService.stop_polling`: sets the stop flag event when one
is registered; removes nothing. -/
def stop_polling (contribution_id : String) (e : Engine) : Engine :=
  if e.stopFlags.any (fun p => p.1 == contribution_id) then
    let flags := e.stopFlags.map (fun p => if p.1 == contribution_id then (p.1, true) else p)
    { e with stopFlags := flags }
  else e

/-- `InvoicePollingService.get_active_polls`. -/
def get_active_polls (e : Engine) : List String :=
  e.pollingThreads

/-- The `finally:` block of `InvoicePollingService._poll_payment`: pop the
thread and the stop flag entries for this contribution. -/
def poll_cleanup (contribution_id : String) (e : Engine) : Engine :=
  let threads := e.pollingThreads.filter (fun i => !(i == contribution_id))
  let flags := e.stopFlags.filter (fun p => !(p.1 == contribution_id))
  { e with pollingThreads := threads, stopFlags := flags }

/-- One iteration of the watcher loop body of
`InvoicePollingService._poll_payment`, followed by the cleanup block on
every exit path.  `timed_out` is the elapsed-time comparison; `provider` is
the outcome of the LNbits call (`none` for `LNbitsAPIError`, which the loop
absorbs and retries). -/
def poll_iteration (fee_percent : Rat) (contribution_id payment_hash campaign_id : String)
    (timed_out : Bool) (provider : Option LNbitsPaymentResponse) (now : String)
    (e : Engine) : Engine :=
  if flag_of e contribution_id then poll_cleanup contribution_id e
  else if timed_out then
    poll_cleanup contribution_id (update_contribution_status_by_id contribution_id "expired" e)
  else
    match provider with
    | none => e
    | some data =>
      let st := check_invoice_status data
      if st.paid then
        if already_paid payment_hash e then poll_cleanup contribution_id e
        else
          poll_cleanup contribution_id
            (update_campaign_amount fee_percent contribution_id campaign_id
              (update_contribution_status_by_payment_hash payment_hash "paid"
                (some now) st.preimage e))
      else if st.status == "expired" || st.status == "cancelled" || st.status == "failed" then
        poll_cleanup contribution_id (update_contribution_status_by_id contribution_id st.status e)
      else e

/-- The `except Exception:` fallback of `_poll_payment`: mark the
contribution failed, then clean up. -/
def poll_error_fallback (contribution_id : String) (e : Engine) : Engine :=
  poll_cleanup contribution_id (update_contribution_status_by_id contribution_id "failed" e)

/-- `InvoicePollingService.handle_webhook_payment`: single-row lookup by
payment hash, idempotency guard on `payment_status == paid`, settle, then
stop any active polling.  Returns the success boolean of the source. -/
def handle_webhook_payment (fee_percent : Rat) (payment_hash : String)
    (campaign_id_arg : Option String) (now : String) (e : Engine) : Engine × Bool :=
  match singleRow (fun r => r.payment_hash == some payment_hash) e.contributions with
  | none => (e, false)
  | some contribution =>
    if contribution.payment_status == "paid" then (e, true)
    else
      let e1 := update_contribution_status_by_payment_hash payment_hash "paid" (some now) none e
      let e2 := update_campaign_amount fee_percent contribution.id
        (campaign_id_arg.getD contribution.campaign_id) e1
      (stop_polling contribution.id e2, true)

/-! ## HTTP routes (routes/contributions.py) -/

/-- The shape of a JSON response body: an error object, a message object, or
the status payload of the status-check route. -/
inductive RespBody where
  | err (text : String)
  | msg (text : String)
  | statusInfo (payment_status : String) (is_paid : Bool)
  deriving DecidableEq, Repr

/-- An HTTP response: status code and body shape. -/
structure HttpResp where
  status : Nat
  body : RespBody
  deriving DecidableEq, Repr

/-- The LNbits webhook JSON payload, restricted to the keys the handler
reads; `none` models an absent key. -/
structure WebhookPayload where
  payment_hash : Option String
  paid : Option Bool
  preimage : Option String
  deriving DecidableEq, Repr

/-- Result of the webhook route: new engine state, HTTP response, and
whether the invalid-signature warning was logged. -/
structure RouteOut where
  engine : Engine
  resp : HttpResp
  warned_bad_signature : Bool
  deriving DecidableEq, Repr

/-- The `POST /api/contributions/webhook` handler `lnbits_webhook` of
routes/contributions.py.  `signature` is the `X-LNbits-Signature` header
(empty when absent, as `headers.get` defaults to the empty string) and
`signature_valid` the outcome `verify_webhook_signature` would return for
it; the handler only logs on a present-but-invalid signature and continues.
`body` is `request.get_json()` (`none` for a missing body). -/
def lnbits_webhook (fee_percent : Rat) (now : String) (signature : String)
    (signature_valid : Bool) (body : Option WebhookPayload) (e : Engine) : RouteOut :=
  let warned := !(signature == "") && !signature_valid
  match body with
  | none => ⟨e, ⟨400, .err "No data provided"⟩, warned⟩
  | some data =>
    match data.payment_hash with
    | none => ⟨e, ⟨400, .err "Payment hash required"⟩, warned⟩
    | some h =>
      if data.paid.getD false = false then
        ⟨e, ⟨200, .msg "Payment not yet confirmed"⟩, warned⟩
      else
        match e.contributions.find? (fun r => r.payment_hash == some h) with
        | none => ⟨e, ⟨404, .msg "Contribution not found"⟩, warned⟩
        | some contribution =>
          if contribution.payment_status == "paid" then
            ⟨e, ⟨200, .msg "Already processed"⟩, warned⟩
          else
            let write : ContributionRow → ContributionRow := fun r =>
              { r with payment_status := "paid", paid_at := some now,
                       transaction_id := data.preimage }
            let rows := updateRows (fun r => r.id == contribution.id) write e.contributions
            let e1 := { e with contributions := rows }
            let e2 :=
              match singleRow (fun k => k.id == contribution.campaign_id) e1.campaigns with
              | some campaign =>
                let new_amount :=
                  campaign.current_amount + creator_amount fee_percent contribution.amount
                let krows := updateRows (fun k => k.id == contribution.campaign_id)
                  (fun k => { k with current_amount := new_amount }) e1.campaigns
                { e1 with campaigns := krows }
              | none => e1
            ⟨stop_polling contribution.id e2, ⟨200, .msg "Webhook processed successfully"⟩, warned⟩

/-- The `GET /api/contributions/:id/status` handler
`check_contribution_status` of routes/contributions.py.  `provider` is the
outcome of the `check_invoice_status` call the handler makes when the
contribution is pending and carries a payment hash (`none` for
`LNbitsAPIError`, which it logs and absorbs). -/
def check_contribution_status (fee_percent : Rat) (now : String) (contribution_id : String)
    (provider : Option LNbitsPaymentResponse) (e : Engine) : Engine × HttpResp :=
  match singleRow (fun r => r.id == contribution_id) e.contributions with
  | none => (e, ⟨404, .err "Contribution not found"⟩)
  | some contribution =>
    if contribution.payment_status == "pending" && contribution.payment_hash.isSome then
      match provider with
      | none =>
        (e, ⟨200, .statusInfo contribution.payment_status
              (contribution.payment_status == "paid")⟩)
      | some data =>
        let st := check_invoice_status data
        if st.paid && !(contribution.payment_status == "paid") then
          let write : ContributionRow → ContributionRow := fun r =>
            { r with payment_status := "paid", paid_at := some now,
                     transaction_id := st.preimage }
          let rows := updateRows (fun r => r.id == contribution_id) write e.contributions
          let e1 := { e with contributions := rows }
          let e2 :=
            match singleRow (fun k => k.id == contribution.campaign_id) e1.campaigns with
            | some campaign =>
              let new_amount :=
                campaign.current_amount + creator_amount fee_percent contribution.amount
              let krows := updateRows (fun k => k.id == contribution.campaign_id)
                (fun k => { k with current_amount := new_amount }) e1.campaigns
              { e1 with campaigns := krows }
            | none => e1
          (stop_polling contribution_id e2, ⟨200, .statusInfo "paid" true⟩)
        else
          (e, ⟨200, .statusInfo contribution.payment_status
                (contribution.payment_status == "paid")⟩)
    else
      (e, ⟨200, .statusInfo contribution.payment_status
            (contribution.payment_status == "paid")⟩)

/-- The `POST /api/contributions/:id/cancel` handler `cancel_contribution`
of routes/contributions.py. -/
def cancel_contribution (contribution_id : String) (e : Engine) : Engine × HttpResp :=
  match singleRow (fun r => r.id == contribution_id) e.contributions with
  | none => (e, ⟨404, .err "Contribution not found"⟩)
  | some contribution =>
    if !(contribution.payment_status == "pending") then
      (e, ⟨400, .err "Can only cancel pending contributions"⟩)
    else
      let e1 := stop_polling contribution_id e
      let rows := updateRows (fun r => r.id == contribution_id)
        (fun r => { r with payment_status := "cancelled" }) e1.contributions
      (⟨rows, e1.campaigns, e1.pollingThreads, e1.stopFlags⟩, ⟨200, .msg "Contribution cancelled successfully"⟩)

/-! ## Webhook signature verification

The repository has two verifiers: `verify_ln_signature` in
services/lightning.py (used by the `/api/webhooks/lightning` route) and
`LNbitsService.verify_webhook_signature` in services/lnbits.py (used by the
LNbits webhook routes).  Both call Python's `hmac`/`hashlib`; that external
primitive is passed in as the function argument `hmac_sha256` mapping a
secret and a payload (byte lists) to the 32-byte digest.  Bytes are `Nat`
values below 256. -/

/-- Lowercase hexadecimal digit. -/
def hex_digit (n : Nat) : Char :=
  if n < 10 then Char.ofNat (48 + n) else Char.ofNat (87 + n)

/-- `hashlib`'s `hexdigest()`: two lowercase hex digits per byte. -/
def hexdigest (digest : List Nat) : String :=
  String.mk (digest.foldr (fun b acc => hex_digit (b / 16 % 16) :: hex_digit (b % 16) :: acc) [])

/-- Standard base64 alphabet. -/
def b64_char (n : Nat) : Char :=
  if n < 26 then Char.ofNat (65 + n)
  else if n < 52 then Char.ofNat (97 + (n - 26))
  else if n < 62 then Char.ofNat (48 + (n - 52))
  else if n = 62 then Char.ofNat 43
  else Char.ofNat 47

/-- RFC 4648 base64 of a byte list, three bytes per four characters with
padding, as `base64.b64encode` produces. -/
def b64_chunks : List Nat → List Char
  | [] => []
  | [a] => [b64_char (a / 4 % 64), b64_char (a % 4 * 16), Char.ofNat 61, Char.ofNat 61]
  | [a, b] => [b64_char (a / 4 % 64), b64_char (a % 4 * 16 + b / 16 % 16),
               b64_char (b % 16 * 4), Char.ofNat 61]
  | a :: b :: c :: rest =>
      b64_char (a / 4 % 64) :: b64_char (a % 4 * 16 + b / 16 % 16) ::
      b64_char (b % 16 * 4 + c / 64 % 4) :: b64_char (c % 64) :: b64_chunks rest

/-- `base64.b64encode(mac.digest()).decode('ascii')`. -/
def b64encode (digest : List Nat) : String :=
  String.mk (b64_chunks digest)

/-- Python `str.strip()` whitespace predicate (ASCII whitespace). -/
def is_py_space (c : Char) : Bool :=
  c == ' ' || c == '\t' || c == '\n' || c == '\r' || c == '\x0b' || c == '\x0c'

/-- Python `str.strip()`. -/
def py_strip (s : String) : String :=
  String.mk (((s.toList.dropWhile is_py_space).reverse.dropWhile is_py_space).reverse)

/-- Everything after the first `=`, as `sig.split('=', 1)[1]` yields when a
first `=` exists. -/
def drop_through_first_eq : List Char → List Char
  | [] => []
  | c :: rest => if c == '=' then rest else drop_through_first_eq rest

/-- The prefix-stripping step of `verify_ln_signature`: when the signature
starts with `sha256=`, keep what follows the first `=`. -/
def sig_after_method_tag (sig : String) : String :=
  if "sha256=".toList.isPrefixOf sig.toList then
    String.mk (drop_through_first_eq sig.toList)
  else sig

/-- `verify_ln_signature` of services/lightning.py, under the default
configuration `LIGHTNING_SIGNATURE_METHOD = hmac-sha256`.  `secret` is
`LIGHTNING_WEBHOOK_SECRET` as bytes (`none` when unset).  Accepts the digest
as raw hex or base64, optionally behind a `sha256=` tag; the source compares
with `hmac.compare_digest`, whose result is string equality (its
constant-time execution is a timing property outside this embedding). -/
def verify_ln_signature (hmac_sha256 : List Nat → List Nat → List Nat)
    (secret : Option (List Nat)) (payload_bytes : List Nat) (signature : String) : Bool :=
  if signature == "" then false
  else
    let sig := sig_after_method_tag (py_strip signature)
    match secret with
    | none => false
    | some s =>
      let mac := hmac_sha256 s payload_bytes
      sig == hexdigest mac || sig == b64encode mac

/-- `LNbitsService.verify_webhook_signature` of services/lnbits.py: HMAC
with the admin key as secret, compared against the raw hex digest only. -/
def verify_webhook_signature (hmac_sha256 : List Nat → List Nat → List Nat)
    (admin_key payload_bytes : List Nat) (signature : String) : Bool :=
  if signature == "" then false
  else hexdigest (hmac_sha256 admin_key payload_bytes) == signature

/-! ## The four settlement paths, uniformly packaged

Each entry runs one settlement attempt for a given contribution against the
engine and reports the success its caller observes: a 200 response for the
HTTP paths, the returned boolean for `handle_webhook_payment`, and `true`
for the watcher (its thread returns nothing; a step that raises no error is
counted as success). -/

def settle_ops (fee_percent : Rat) (cid h campid : String)
    (data : LNbitsPaymentResponse) (pre : Option String) (now : String) :
    List (Engine → Engine × Bool) :=
  [ fun e =>
      let o := lnbits_webhook fee_percent now "" true (some ⟨some h, some true, pre⟩) e
      (o.engine, o.resp.status == 200),
    fun e =>
      handle_webhook_payment fee_percent h none now e,
    fun e =>
      (poll_iteration fee_percent cid h campid false (some data) now e, true),
    fun e =>
      let o := check_contribution_status fee_percent now cid (some data) e
      (o.1, o.2.status == 200) ]

/-! ## Proof-support predicates -/

/-- Row-by-row bound on the payment statuses an operation may write: each
row keeps its status or receives one from `allowed`. -/
def StatusBound (l l2 : List ContributionRow) (allowed : List String) : Prop :=
  List.Forall₂ (fun before after =>
    after.payment_status = before.payment_status ∨ after.payment_status ∈ allowed) l l2

/-- The store facts every settlement path establishes for a contribution
keyed by `cid`/`h` on campaign `campid`, and from which every later
settlement attempt is a no-op: the three lookups the paths use all return
the same row, that row is paid, and the campaign total is `target`. -/
def SettledState (cid h campid : String) (target : Rat) (e : Engine) : Prop :=
  ∃ cp : ContributionRow,
    singleRow (fun r => r.id == cid) e.contributions = some cp ∧
    singleRow (fun r => r.payment_hash == some h) e.contributions = some cp ∧
    e.contributions.find? (fun r => r.payment_hash == some h) = some cp ∧
    cp.payment_status = "paid" ∧
    ∃ kp : CampaignRow,
      singleRow (fun x => x.id == campid) e.campaigns = some kp ∧
      kp.current_amount = target

/-! # Theorems

General lemmas about the store primitives, then one theorem (plus witness
or counterexample) per claim. -/

theorem singleRow_eq_some_iff {α : Type} {p : α → Bool} {l : List α} {c : α} :
    singleRow p l = some c ↔ l.filter p = [c] := by
  unfold singleRow
  rcases hl : l.filter p with _ | ⟨a, _ | ⟨b, t⟩⟩ <;> simp

theorem singleRow_unique {α : Type} {p : α → Bool} {l : List α} {c : α}
    (h : singleRow p l = some c) (i : Nat) (hi : i < l.length)
    (hp : p (l.get ⟨i, hi⟩) = true) : l.get ⟨i, hi⟩ = c := by
  have hf := singleRow_eq_some_iff.mp h
  have hm : l.get ⟨i, hi⟩ ∈ l.filter p := List.mem_filter.mpr ⟨List.get_mem l i hi, hp⟩
  rw [hf] at hm
  simpa using hm

theorem filter_updateRows {α : Type} (p q : α → Bool) (f : α → α) (l : List α)
    (hq : ∀ a, q (if p a then f a else a) = q a) :
    (updateRows p f l).filter q = (l.filter q).map (fun a => if p a then f a else a) := by
  unfold updateRows
  rw [@List.filter_map _ _ q (fun a => if p a then f a else a) l]
  congr 1
  exact List.filter_congr (fun a _ => hq a)

theorem singleRow_updateRows {α : Type} (p q : α → Bool) (f : α → α) (l : List α)
    (hq : ∀ a, q (if p a then f a else a) = q a) :
    singleRow q (updateRows p f l) =
      (singleRow q l).map (fun a => if p a then f a else a) := by
  unfold singleRow
  rw [filter_updateRows p q f l hq]
  rcases hl : l.filter q with _ | ⟨a, _ | ⟨b, t⟩⟩ <;> simp

theorem find?_congr_all {α : Type} {p q : α → Bool} (h : ∀ a, p a = q a) :
    ∀ l : List α, l.find? p = l.find? q := by
  intro l
  induction l with
  | nil => rfl
  | cons a t ih =>
    rcases ha : q a with _ | _ <;> simp [List.find?, h a, ha, ih]

theorem find?_updateRows {α : Type} (p q : α → Bool) (f : α → α) (l : List α)
    (hq : ∀ a, q (if p a then f a else a) = q a) :
    (updateRows p f l).find? q = (l.find? q).map (fun a => if p a then f a else a) := by
  unfold updateRows
  rw [@List.find?_map _ _ q (fun a => if p a then f a else a) l]
  congr 1
  exact find?_congr_all (fun a => hq a) l

theorem updateRows_length {α : Type} (p : α → Bool) (f : α → α) (l : List α) :
    (updateRows p f l).length = l.length := by
  simp [updateRows]

theorem updateRows_get {α : Type} (p : α → Bool) (f : α → α) (l : List α)
    (i : Nat) (h1 : i < l.length) (h2 : i < (updateRows p f l).length) :
    (updateRows p f l).get ⟨i, h2⟩ =
      if p (l.get ⟨i, h1⟩) then f (l.get ⟨i, h1⟩) else l.get ⟨i, h1⟩ := by
  simp [updateRows]

/-! Projection lemmas: which state components each operation leaves alone. -/

theorem uc_by_hash_campaigns (h st : String) (pa pre : Option String) (e : Engine) :
    (update_contribution_status_by_payment_hash h st pa pre e).campaigns = e.campaigns := rfl

theorem uc_by_hash_threads (h st : String) (pa pre : Option String) (e : Engine) :
    (update_contribution_status_by_payment_hash h st pa pre e).pollingThreads =
      e.pollingThreads := rfl

theorem uc_by_hash_flags (h st : String) (pa pre : Option String) (e : Engine) :
    (update_contribution_status_by_payment_hash h st pa pre e).stopFlags = e.stopFlags := rfl

theorem uc_by_id_campaigns (cid st : String) (e : Engine) :
    (update_contribution_status_by_id cid st e).campaigns = e.campaigns := rfl

theorem uca_contributions (fee : Rat) (cid kid : String) (e : Engine) :
    (update_campaign_amount fee cid kid e).contributions = e.contributions := by
  unfold update_campaign_amount
  split
  · rfl
  · split <;> rfl

theorem uca_threads (fee : Rat) (cid kid : String) (e : Engine) :
    (update_campaign_amount fee cid kid e).pollingThreads = e.pollingThreads := by
  unfold update_campaign_amount
  split
  · rfl
  · split <;> rfl

theorem uca_flags (fee : Rat) (cid kid : String) (e : Engine) :
    (update_campaign_amount fee cid kid e).stopFlags = e.stopFlags := by
  unfold update_campaign_amount
  split
  · rfl
  · split <;> rfl

theorem stop_polling_contributions (cid : String) (e : Engine) :
    (stop_polling cid e).contributions = e.contributions := by
  unfold stop_polling
  split <;> rfl

theorem stop_polling_campaigns (cid : String) (e : Engine) :
    (stop_polling cid e).campaigns = e.campaigns := by
  unfold stop_polling
  split <;> rfl

theorem stop_polling_threads (cid : String) (e : Engine) :
    (stop_polling cid e).pollingThreads = e.pollingThreads := by
  unfold stop_polling
  split <;> rfl

theorem poll_cleanup_contributions (cid : String) (e : Engine) :
    (poll_cleanup cid e).contributions = e.contributions := rfl

theorem poll_cleanup_campaigns (cid : String) (e : Engine) :
    (poll_cleanup cid e).campaigns = e.campaigns := rfl

/-- The equation of `update_campaign_amount` on the path where both
`.single()` reads succeed. -/
theorem uca_campaigns_eq (fee : Rat) (cid kid : String) (e : Engine)
    (c : ContributionRow) (k : CampaignRow)
    (hc : singleRow (fun r => r.id == cid) e.contributions = some c)
    (hk : singleRow (fun x => x.id == kid) e.campaigns = some k) :
    (update_campaign_amount fee cid kid e).campaigns =
      updateRows (fun x => x.id == kid)
        (fun x => { x with current_amount := k.current_amount + creator_amount fee c.amount })
        e.campaigns := by
  unfold update_campaign_amount
  rw [hc, hk]

/-- Counterexample to claim C4: the settlement arithmetic is IEEE binary64,
and in general it does have rounding loss.  For a 999-unit contribution at
the default fee percent `2.5` (`mkRat 5 2`), the program credits the double
`8567614505956147 / 2 ^ 43` — the correctly rounded result of
`999 - 999 * (2.5 / 100)` in float arithmetic — which is not the exact
value `999 - 999 * 2.5 / 100 = 38961 / 40` the claim asserts. -/
theorem fee_rounding_loss_cex :
    creator_amount_float (mkRat 5 2) 999 = Rat.divInt 8567614505956147 8796093022208 ∧
    Rat.divInt 8567614505956147 8796093022208 ≠ 999 - 999 * (mkRat 5 2) / 100 := by
  constructor
  · decide
  · rw [Rat.divInt_eq_div, Rat.mkRat_eq_div]
    norm_num

/-- Claim C4 as amended: on the cited instance, `amount = 1000` at fee
percent `2.5`, the program's binary64 computation is bit-exact —
`platform_fee = 25` and `creator_amount = 975`, agreeing with the exact
rational formula `platform_fee = amount * fee_percent / 100`,
`creator_amount = amount - platform_fee`.  In general the settlement
computes the correctly rounded double evaluation of that formula, with no
integer truncation, and rounding loss can occur: at `amount = 999` the
computed platform fee is the double `3514918771674317 / 2 ^ 47` and the
credited creator amount is `8567614505956147 / 2 ^ 43`, while the exact
formula gives `38961 / 40`. -/
theorem settlement_fee_computation_float :
    platform_fee_float (mkRat 5 2) 1000 = 25 ∧
    creator_amount_float (mkRat 5 2) 1000 = 975 ∧
    platform_fee (mkRat 5 2) 1000 = 25 ∧
    creator_amount (mkRat 5 2) 1000 = 975 ∧
    platform_fee_float (mkRat 5 2) 999 = Rat.divInt 3514918771674317 140737488355328 ∧
    creator_amount_float (mkRat 5 2) 999 = Rat.divInt 8567614505956147 8796093022208 ∧
    creator_amount (mkRat 5 2) 999 = mkRat 38961 40 := by
  refine ⟨by decide, by decide, ?_, ?_, by decide, by decide, ?_⟩
  · norm_num [platform_fee, Rat.mkRat_eq_div]
  · norm_num [creator_amount, platform_fee, Rat.mkRat_eq_div]
  · norm_num [creator_amount, platform_fee, Rat.mkRat_eq_div]

/-- Counterexample to claim C5: the settlement path is not integer
arithmetic.  `Contribution.amount` is a Python float (`amount: float` in
models/contribution.py) and `_update_campaign_amount` computes
`amount * (PLATFORM_FEE_PERCENT / 100)` in float arithmetic, so for a
999-unit contribution at the default 2.5 percent the campaign is credited
`974.025`, which is not an integer number of units. -/
theorem settlement_amounts_not_integral_cex :
    ((update_campaign_amount PLATFORM_FEE_PERCENT "c1" "k1"
        ⟨[⟨"c1", "k1", 999, "pending", some "h1", none, none⟩],
         [⟨"k1", 0⟩], [], []⟩).campaigns.map (fun k => k.current_amount)) =
      [(38961 : Rat) / 40] ∧
    ¬ ∃ z : ℤ, ((38961 : Rat) / 40) = (z : Rat) := by
  constructor
  · rw [uca_campaigns_eq PLATFORM_FEE_PERCENT "c1" "k1"
      ⟨[⟨"c1", "k1", 999, "pending", some "h1", none, none⟩], [⟨"k1", 0⟩], [], []⟩
      ⟨"c1", "k1", 999, "pending", some "h1", none, none⟩ ⟨"k1", 0⟩ rfl rfl]
    simp [updateRows, creator_amount, platform_fee, PLATFORM_FEE_PERCENT]
    norm_num
  · rintro ⟨z, hz⟩
    rw [div_eq_iff (by norm_num : (40 : Rat) ≠ 0)] at hz
    have hint : (38961 : ℤ) = z * 40 := by exact_mod_cast hz
    omega

/-- Claim C5 as amended: every settlement-path amount is an exact rational
(the embedding of Python float values), the arithmetic is exact in that
field, and the credited amount is `amount - amount * fee / 100`, which need
not be integral. -/
theorem settlement_rational_arithmetic :
    ∀ (fee : Rat) (cid kid : String) (e : Engine) (c : ContributionRow) (k : CampaignRow),
      singleRow (fun r => r.id == cid) e.contributions = some c →
      singleRow (fun x => x.id == kid) e.campaigns = some k →
      (update_campaign_amount fee cid kid e).campaigns.map (fun x => x.current_amount) =
        e.campaigns.map (fun x =>
          if x.id == kid then k.current_amount + (c.amount - c.amount * fee / 100)
          else x.current_amount) := by
  intro fee cid kid e c k hc hk
  rw [uca_campaigns_eq fee cid kid e c k hc hk]
  unfold updateRows
  rw [List.map_map]
  apply List.map_congr_left
  intro x _
  by_cases hx : x.id = kid
  · simp [hx, creator_amount, platform_fee, mul_div_assoc]
  · simp [hx]

/-- Witness for the amended C5 on a concrete two-campaign store. -/
theorem settlement_rational_arithmetic_witness :
    (update_campaign_amount (5 / 2) "c1" "k1"
        ⟨[⟨"c1", "k1", 999, "pending", some "h1", none, none⟩],
         [⟨"k1", 1⟩, ⟨"k2", 2⟩], [], []⟩).campaigns.map (fun x => x.current_amount) =
      ([⟨"k1", 1⟩, ⟨"k2", 2⟩] : List CampaignRow).map (fun x =>
        if x.id == "k1" then (1 : Rat) + (999 - 999 * (5 / 2) / 100) else x.current_amount) :=
  settlement_rational_arithmetic (5 / 2) "c1" "k1"
    ⟨[⟨"c1", "k1", 999, "pending", some "h1", none, none⟩], [⟨"k1", 1⟩, ⟨"k2", 2⟩], [], []⟩
    ⟨"c1", "k1", 999, "pending", some "h1", none, none⟩ ⟨"k1", 1⟩ rfl rfl

/-- Claim C10: `check_invoice_status` only ever reports `pending`, `paid` or
`expired`, never `failed` or `cancelled`; hence the watcher terminal-branch
guard `status in [expired, cancelled, failed]` holds for a status produced
by this client exactly when that status is `expired`. -/
theorem check_invoice_status_range :
    ∀ d : LNbitsPaymentResponse,
      ((check_invoice_status d).status = "pending" ∨
        (check_invoice_status d).status = "paid" ∨
        (check_invoice_status d).status = "expired") ∧
      ((((check_invoice_status d).status == "expired" ||
          (check_invoice_status d).status == "cancelled" ||
          (check_invoice_status d).status == "failed") = true) ↔
        (check_invoice_status d).status = "expired") := by
  intro d
  rcases d with ⟨_ | (_ | _), _ | (_ | _), _ | (_ | _), pre⟩ <;>
    simp [check_invoice_status]

/-- Witness for C10 at a concrete provider response reporting a dead
invoice (`paid` false, `pending` false, `expired` true). -/
theorem check_invoice_status_range_witness :
    ((check_invoice_status ⟨some false, some false, some true, none⟩).status = "pending" ∨
      (check_invoice_status ⟨some false, some false, some true, none⟩).status = "paid" ∨
      (check_invoice_status ⟨some false, some false, some true, none⟩).status = "expired") ∧
    ((((check_invoice_status ⟨some false, some false, some true, none⟩).status == "expired" ||
        (check_invoice_status ⟨some false, some false, some true, none⟩).status == "cancelled" ||
        (check_invoice_status ⟨some false, some false, some true, none⟩).status == "failed") = true) ↔
      (check_invoice_status ⟨some false, some false, some true, none⟩).status = "expired") :=
  check_invoice_status_range ⟨some false, some false, some true, none⟩

/-- Claim C8: `start_polling` is a no-op when a watcher thread is already
registered for the contribution id, and it preserves the
at-most-one-watcher-per-id invariant (no duplicate keys in the registry). -/
theorem start_polling_at_most_one_watcher :
    ∀ (e : Engine) (cid h kid : String),
      (e.pollingThreads.contains cid = true → start_polling cid h kid e = e) ∧
      (e.pollingThreads.Nodup → (start_polling cid h kid e).pollingThreads.Nodup) := by
  intro e cid h kid
  constructor
  · intro hc
    unfold start_polling
    rw [hc]
    simp
  · intro hnd
    unfold start_polling
    by_cases hc : e.pollingThreads.contains cid = true
    · rw [hc]
      simpa using hnd
    · have hc2 : e.pollingThreads.contains cid = false := by
        simpa using hc
      rw [hc2]
      simp only [Bool.false_eq_true, if_false]
      refine List.nodup_cons.mpr ⟨?_, hnd⟩
      simpa using hc2

/-- Witness for C8: registering twice on a concrete one-watcher registry. -/
theorem start_polling_at_most_one_watcher_witness :
    start_polling "c1" "h1" "k1" (⟨[], [], ["c1"], [("c1", false)]⟩ : Engine) =
      (⟨[], [], ["c1"], [("c1", false)]⟩ : Engine) ∧
    (start_polling "c1" "h1" "k1" (⟨[], [], ["c1"], [("c1", false)]⟩ : Engine)).pollingThreads.Nodup :=
  ⟨(start_polling_at_most_one_watcher ⟨[], [], ["c1"], [("c1", false)]⟩ "c1" "h1" "k1").1 (by decide),
   (start_polling_at_most_one_watcher ⟨[], [], ["c1"], [("c1", false)]⟩ "c1" "h1" "k1").2 (by decide)⟩

/-- Counterexample to claim C9: `stop_polling` does not remove the registry
entry.  On a registry with one live watcher for `c1`, immediately after
`stop_polling("c1")` the id still appears in `get_active_polls` — removal
only happens in the watcher thread's own cleanup step. -/
theorem stop_polling_leaves_active_entry_cex :
    "c1" ∈ get_active_polls (stop_polling "c1" ⟨[], [], ["c1"], [("c1", false)]⟩) := by
  decide

/-- The flag entry written by `stop_polling` is the one `find?` sees. -/
theorem find?_setflag (cid : String) :
    ∀ l : List (String × Bool),
      l.any (fun p => p.1 == cid) = true →
      (l.map (fun p => if p.1 == cid then (p.1, true) else p)).find?
        (fun p => p.1 == cid) = some (cid, true) := by
  intro l
  induction l with
  | nil => simp
  | cons a t ih =>
    intro hany
    rcases a with ⟨x, b⟩
    by_cases hx : (x == cid) = true
    · have hxe : x = cid := by simpa using hx
      subst hxe
      simp [List.find?]
    · have hx2 : (x == cid) = false := by simpa using hx
      simp only [List.any_cons] at hany
      simp only [hx2, Bool.false_or] at hany
      simp only [List.map_cons, hx2, Bool.false_eq_true, if_false]
      rw [List.find?_cons_of_neg _ (by simp [hx2])]
      exact ih hany

/-- Claim C9 as amended: `stop_polling` signals the stop flag when an entry
exists and is a harmless no-op otherwise, but removes nothing itself; the
registry entry disappears when the watcher observes the set flag and runs
its cleanup step, after which the id is gone from `get_active_polls`. -/
theorem stop_polling_signals_flag :
    ∀ (e : Engine) (cid : String),
      (e.stopFlags.any (fun p => p.1 == cid) = false → stop_polling cid e = e) ∧
      (e.stopFlags.any (fun p => p.1 == cid) = true →
        flag_of (stop_polling cid e) cid = true ∧
        (stop_polling cid e).pollingThreads = e.pollingThreads ∧
        (stop_polling cid e).contributions = e.contributions ∧
        (stop_polling cid e).campaigns = e.campaigns) ∧
      (∀ (fee : Rat) (h kid now : String) (t : Bool) (prov : Option LNbitsPaymentResponse),
        flag_of e cid = true →
        poll_iteration fee cid h kid t prov now e = poll_cleanup cid e ∧
        cid ∉ get_active_polls (poll_cleanup cid e) ∧
        (poll_cleanup cid e).contributions = e.contributions ∧
        (poll_cleanup cid e).campaigns = e.campaigns) := by
  intro e cid
  refine ⟨?_, ?_, ?_⟩
  · intro hno
    unfold stop_polling
    simp [hno]
  · intro hyes
    refine ⟨?_, ?_, ?_, ?_⟩
    · unfold stop_polling
      rw [hyes]
      simp only [if_true]
      unfold flag_of
      rw [find?_setflag cid e.stopFlags hyes]
    · exact stop_polling_threads cid e
    · exact stop_polling_contributions cid e
    · exact stop_polling_campaigns cid e
  · intro fee h kid now t prov hflag
    refine ⟨?_, ?_, rfl, rfl⟩
    · unfold poll_iteration
      simp [hflag]
    · unfold get_active_polls poll_cleanup
      simp

/-- Witness for the amended C9 on a concrete one-watcher registry. -/
theorem stop_polling_signals_flag_witness :
    flag_of (stop_polling "c1" ⟨[], [], ["c1"], [("c1", false)]⟩) "c1" = true ∧
    (stop_polling "c1" (⟨[], [], ["c1"], [("c1", false)]⟩ : Engine)).pollingThreads = ["c1"] ∧
    (stop_polling "c1" (⟨[], [], ["c1"], [("c1", false)]⟩ : Engine)).contributions = [] ∧
    (stop_polling "c1" (⟨[], [], ["c1"], [("c1", false)]⟩ : Engine)).campaigns = [] :=
  (stop_polling_signals_flag ⟨[], [], ["c1"], [("c1", false)]⟩ "c1").2.1 (by decide)

/-- Claim C7: the LNbits webhook handler never rejects a request for a
missing signature — with an absent `X-LNbits-Signature` header the engine
transition and the HTTP response are identical to those for a valid
signature, and no invalid-signature warning is logged. -/
theorem webhook_missing_signature_tolerated :
    ∀ (fee : Rat) (now sig : String) (sv : Bool) (body : Option WebhookPayload) (e : Engine),
      (lnbits_webhook fee now "" true body e).engine =
        (lnbits_webhook fee now sig sv body e).engine ∧
      (lnbits_webhook fee now "" true body e).resp =
        (lnbits_webhook fee now sig sv body e).resp ∧
      (lnbits_webhook fee now "" sv body e).warned_bad_signature = false := by
  intro fee now sig sv body e
  unfold lnbits_webhook
  rcases body with _ | data
  · exact ⟨rfl, rfl, rfl⟩
  · rcases data with ⟨ph, pd, pre⟩
    rcases ph with _ | h
    · exact ⟨rfl, rfl, rfl⟩
    · simp only
      split
      · exact ⟨rfl, rfl, rfl⟩
      · split
        · exact ⟨rfl, rfl, rfl⟩
        · split
          · exact ⟨rfl, rfl, rfl⟩
          · exact ⟨rfl, rfl, rfl⟩

/-- Witness for C7 at a concrete paid notification against a one-row store. -/
theorem webhook_missing_signature_tolerated_witness :
    (lnbits_webhook (5 / 2) "T" "" true (some ⟨some "h1", some true, none⟩)
        ⟨[⟨"c1", "k1", 1000, "pending", some "h1", none, none⟩], [⟨"k1", 0⟩], [], []⟩).engine =
      (lnbits_webhook (5 / 2) "T" "bogus-signature" false (some ⟨some "h1", some true, none⟩)
        ⟨[⟨"c1", "k1", 1000, "pending", some "h1", none, none⟩], [⟨"k1", 0⟩], [], []⟩).engine ∧
    (lnbits_webhook (5 / 2) "T" "" true (some ⟨some "h1", some true, none⟩)
        ⟨[⟨"c1", "k1", 1000, "pending", some "h1", none, none⟩], [⟨"k1", 0⟩], [], []⟩).resp =
      (lnbits_webhook (5 / 2) "T" "bogus-signature" false (some ⟨some "h1", some true, none⟩)
        ⟨[⟨"c1", "k1", 1000, "pending", some "h1", none, none⟩], [⟨"k1", 0⟩], [], []⟩).resp ∧
    (lnbits_webhook (5 / 2) "T" "" false (some ⟨some "h1", some true, none⟩)
        ⟨[⟨"c1", "k1", 1000, "pending", some "h1", none, none⟩], [⟨"k1", 0⟩], [], []⟩).warned_bad_signature = false :=
  webhook_missing_signature_tolerated (5 / 2) "T" "bogus-signature" false
    (some ⟨some "h1", some true, none⟩)
    ⟨[⟨"c1", "k1", 1000, "pending", some "h1", none, none⟩], [⟨"k1", 0⟩], [], []⟩

/-- Counterexample to claim C6: the verifier actually guarding the LNbits
webhook routes, `LNbitsService.verify_webhook_signature`, accepts only the
raw hex digest — the base64 encoding of the digest and the `sha256=`-prefixed
hex form are rejected, although the claim says signature verification accepts
them.  (The flexible verifier `verify_ln_signature` of services/lightning.py
does accept the base64 form, as the last conjunct shows.) -/
theorem webhook_signature_base64_rejected_cex :
    verify_webhook_signature (fun _ _ => List.range 32) [107] [1, 2]
      (b64encode (List.range 32)) = false ∧
    verify_webhook_signature (fun _ _ => List.range 32) [107] [1, 2]
      ("sha256=" ++ hexdigest (List.range 32)) = false ∧
    verify_ln_signature (fun _ _ => List.range 32) (some [107]) [1, 2]
      (b64encode (List.range 32)) = true := by
  decide

/-- Claim C6 as amended: `verify_ln_signature` (services/lightning.py)
accepts the digest as raw hex or base64, each optionally behind a `sha256=`
tag, and rejects every signature whose stripped form matches neither
encoding; `LNbitsService.verify_webhook_signature` (the verifier used by the
LNbits webhook routes) accepts exactly the raw hex digest and rejects
everything else, including the base64 and prefixed forms.  Both compare with
`hmac.compare_digest`; its constant-time execution is a timing property not
expressible in this embedding. -/
theorem signature_verification_amended :
    ∀ (hm : List Nat → List Nat → List Nat) (secret payload : List Nat),
      (py_strip (hexdigest (hm secret payload)) = hexdigest (hm secret payload) →
        "sha256=".toList.isPrefixOf (hexdigest (hm secret payload)).toList = false →
        hexdigest (hm secret payload) ≠ "" →
        verify_ln_signature hm (some secret) payload (hexdigest (hm secret payload)) = true) ∧
      (py_strip ("sha256=" ++ hexdigest (hm secret payload)) =
          "sha256=" ++ hexdigest (hm secret payload) →
        verify_ln_signature hm (some secret) payload
          ("sha256=" ++ hexdigest (hm secret payload)) = true) ∧
      (py_strip (b64encode (hm secret payload)) = b64encode (hm secret payload) →
        "sha256=".toList.isPrefixOf (b64encode (hm secret payload)).toList = false →
        b64encode (hm secret payload) ≠ "" →
        verify_ln_signature hm (some secret) payload (b64encode (hm secret payload)) = true) ∧
      (py_strip ("sha256=" ++ b64encode (hm secret payload)) =
          "sha256=" ++ b64encode (hm secret payload) →
        verify_ln_signature hm (some secret) payload
          ("sha256=" ++ b64encode (hm secret payload)) = true) ∧
      (∀ sig : String,
        sig_after_method_tag (py_strip sig) ≠ hexdigest (hm secret payload) →
        sig_after_method_tag (py_strip sig) ≠ b64encode (hm secret payload) →
        verify_ln_signature hm (some secret) payload sig = false) ∧
      (hexdigest (hm secret payload) ≠ "" →
        verify_webhook_signature hm secret payload (hexdigest (hm secret payload)) = true) ∧
      (∀ sig : String, sig ≠ hexdigest (hm secret payload) →
        verify_webhook_signature hm secret payload sig = false) := by
  intro hm secret payload
  have happend : ∀ s : String, ("sha256=" ++ s) ≠ "" := by
    intro s hcontra
    have hdata := congrArg String.data hcontra
    rw [String.data_append] at hdata
    have hempty : ("" : String).data = [] := rfl
    rw [hempty] at hdata
    rcases List.append_eq_nil.mp hdata with ⟨h7, _⟩
    exact absurd h7 (by decide)
  have htag : ∀ s : String, sig_after_method_tag ("sha256=" ++ s) = s := by
    intro s
    unfold sig_after_method_tag
    have hlist : ("sha256=" ++ s).toList = "sha256=".toList ++ s.toList :=
      String.data_append _ _
    rw [hlist]
    have hpre : "sha256=".toList.isPrefixOf ("sha256=".toList ++ s.toList) = true := by
      simp [List.isPrefixOf_iff_prefix]
    rw [hpre]
    simp only [if_true]
    have hchars : ("sha256=" : String).toList = ['s', 'h', 'a', '2', '5', '6', '='] := rfl
    rw [hchars]
    simp [drop_through_first_eq]
  refine ⟨?_, ?_, ?_, ?_, ?_, ?_, ?_⟩
  · intro hp hs hne
    unfold verify_ln_signature
    have h0 : (hexdigest (hm secret payload) == "") = false := by simpa using hne
    rw [h0]
    simp only [Bool.false_eq_true, if_false]
    rw [hp]
    unfold sig_after_method_tag
    rw [hs]
    simp
  · intro hp
    unfold verify_ln_signature
    have h0 : (("sha256=" ++ hexdigest (hm secret payload)) == "") = false := by
      simpa using happend (hexdigest (hm secret payload))
    rw [h0]
    simp only [Bool.false_eq_true, if_false]
    rw [hp, htag]
    simp
  · intro hp hs hne
    unfold verify_ln_signature
    have h0 : (b64encode (hm secret payload) == "") = false := by simpa using hne
    rw [h0]
    simp only [Bool.false_eq_true, if_false]
    rw [hp]
    unfold sig_after_method_tag
    rw [hs]
    simp
  · intro hp
    unfold verify_ln_signature
    have h0 : (("sha256=" ++ b64encode (hm secret payload)) == "") = false := by
      simpa using happend (b64encode (hm secret payload))
    rw [h0]
    simp only [Bool.false_eq_true, if_false]
    rw [hp, htag]
    simp
  · intro sig h1 h2
    unfold verify_ln_signature
    by_cases h0 : (sig == "") = true
    · rw [h0]
      simp
    · have h0f : (sig == "") = false := by simpa using h0
      rw [h0f]
      simp [h1, h2]
  · intro hne
    unfold verify_webhook_signature
    have h0 : (hexdigest (hm secret payload) == "") = false := by simpa using hne
    rw [h0]
    simp
  · intro sig hne
    unfold verify_webhook_signature
    by_cases h0 : (sig == "") = true
    · rw [h0]
      simp
    · have h0f : (sig == "") = false := by simpa using h0
      rw [h0f]
      simp only [Bool.false_eq_true, if_false]
      simpa using fun hcontra => hne hcontra.symm

/-- Witness for the amended C6 with a concrete 32-byte digest; all
side conditions on the encodings hold by computation and a non-matching
signature is rejected by both verifiers. -/
theorem signature_verification_amended_witness :
    verify_ln_signature (fun _ _ => List.range 32) (some [107]) [1, 2]
      (hexdigest (List.range 32)) = true ∧
    verify_ln_signature (fun _ _ => List.range 32) (some [107]) [1, 2]
      ("sha256=" ++ hexdigest (List.range 32)) = true ∧
    verify_ln_signature (fun _ _ => List.range 32) (some [107]) [1, 2]
      (b64encode (List.range 32)) = true ∧
    verify_ln_signature (fun _ _ => List.range 32) (some [107]) [1, 2]
      ("sha256=" ++ b64encode (List.range 32)) = true ∧
    verify_ln_signature (fun _ _ => List.range 32) (some [107]) [1, 2] "deadbeef" = false ∧
    verify_webhook_signature (fun _ _ => List.range 32) [107] [1, 2]
      (hexdigest (List.range 32)) = true ∧
    verify_webhook_signature (fun _ _ => List.range 32) [107] [1, 2] "deadbeef" = false := by
  have h := signature_verification_amended (fun _ _ => List.range 32) [107] [1, 2]
  exact ⟨h.1 (by decide) (by decide) (by decide),
         h.2.1 (by decide),
         h.2.2.1 (by decide) (by decide) (by decide),
         h.2.2.2.1 (by decide),
         h.2.2.2.2.1 "deadbeef" (by decide) (by decide),
         h.2.2.2.2.2.1 (by decide),
         h.2.2.2.2.2.2 "deadbeef" (by decide)⟩

/-- Counterexample to claim C3: on a well-formed paid notification whose
payment hash matches no stored contribution, the contributions webhook
returns HTTP 404, not a 200-style acknowledgement. -/
theorem webhook_not_found_returns_404_cex :
    (lnbits_webhook (5 / 2) "T" "" true (some ⟨some "h1", some true, none⟩)
        ⟨[], [], [], []⟩).resp = ⟨404, .msg "Contribution not found"⟩ ∧
    (lnbits_webhook (5 / 2) "T" "" true (some ⟨some "h1", some true, none⟩)
        ⟨[], [], [], []⟩).resp.status ≠ 200 := by
  exact ⟨rfl, by decide⟩

/-- Claim C3 as amended: the contributions webhook acknowledges an
already-paid notification with 200 and answers an unknown payment hash with
404 (a message body, but an error status code); a response with an
error-shaped body arises only from malformed payloads — a missing body or a
missing payment hash. -/
theorem webhook_response_classification :
    ∀ (fee : Rat) (now sig : String) (sv : Bool) (body : Option WebhookPayload) (e : Engine),
      (body = none →
        (lnbits_webhook fee now sig sv body e).resp = ⟨400, .err "No data provided"⟩ ∧
        (lnbits_webhook fee now sig sv body e).engine = e) ∧
      (∀ d : WebhookPayload, body = some d → d.payment_hash = none →
        (lnbits_webhook fee now sig sv body e).resp = ⟨400, .err "Payment hash required"⟩ ∧
        (lnbits_webhook fee now sig sv body e).engine = e) ∧
      (∀ (d : WebhookPayload) (h : String), body = some d → d.payment_hash = some h →
        d.paid.getD false = true →
        e.contributions.find? (fun r => r.payment_hash == some h) = none →
        (lnbits_webhook fee now sig sv body e).resp = ⟨404, .msg "Contribution not found"⟩ ∧
        (lnbits_webhook fee now sig sv body e).engine = e) ∧
      (∀ (d : WebhookPayload) (h : String) (c : ContributionRow),
        body = some d → d.payment_hash = some h → d.paid.getD false = true →
        e.contributions.find? (fun r => r.payment_hash == some h) = some c →
        c.payment_status = "paid" →
        (lnbits_webhook fee now sig sv body e).resp = ⟨200, .msg "Already processed"⟩ ∧
        (lnbits_webhook fee now sig sv body e).engine = e) ∧
      (∀ t : String, (lnbits_webhook fee now sig sv body e).resp.body = .err t →
        body = none ∨ ∃ d : WebhookPayload, body = some d ∧ d.payment_hash = none) := by
  intro fee now sig sv body e
  refine ⟨?_, ?_, ?_, ?_, ?_⟩
  · rintro rfl
    exact ⟨rfl, rfl⟩
  · rintro d rfl hph
    simp only [lnbits_webhook]
    rw [hph]
    exact ⟨rfl, rfl⟩
  · rintro d h rfl hph hpaid hfind
    simp only [lnbits_webhook]
    rw [hph, hpaid]
    simp only [Bool.true_eq_false, if_false]
    rw [hfind]
    exact ⟨rfl, rfl⟩
  · rintro d h c rfl hph hpaid hfind hc
    simp only [lnbits_webhook]
    rw [hph, hpaid]
    simp only [Bool.true_eq_false, if_false]
    rw [hfind]
    have hcb : (c.payment_status == "paid") = true := by simp [hc]
    simp [hcb]
  · intro t ht
    rcases body with _ | d
    · exact Or.inl rfl
    · rcases hph : d.payment_hash with _ | h
      · exact Or.inr ⟨d, rfl, hph⟩
      · exfalso
        simp only [lnbits_webhook] at ht
        rw [hph] at ht
        by_cases hpaid : d.paid.getD false = false
        · rw [hpaid] at ht
          simp at ht
        · have hpaid2 : d.paid.getD false = true := by
            rcases hb : d.paid.getD false
            · exact absurd hb hpaid
            · rfl
          rw [hpaid2] at ht
          simp only [Bool.true_eq_false, if_false] at ht
          rcases hfind : e.contributions.find? (fun r => r.payment_hash == some h) with _ | c
          · rw [hfind] at ht
            simp at ht
          · rw [hfind] at ht
            by_cases hc : (c.payment_status == "paid") = true
            · simp [hc] at ht
            · have hc2 : (c.payment_status == "paid") = false := by simpa using hc
              simp [hc2] at ht

/-- Witness for the amended C3: the already-paid acknowledgement on a
concrete one-row store. -/
theorem webhook_response_classification_witness :
    (lnbits_webhook (5 / 2) "T" "" true (some ⟨some "h1", some true, none⟩)
        ⟨[⟨"c1", "k1", 1000, "paid", some "h1", none, some "T0"⟩], [⟨"k1", 975⟩], [], []⟩).resp =
      ⟨200, .msg "Already processed"⟩ ∧
    (lnbits_webhook (5 / 2) "T" "" true (some ⟨some "h1", some true, none⟩)
        ⟨[⟨"c1", "k1", 1000, "paid", some "h1", none, some "T0"⟩], [⟨"k1", 975⟩], [], []⟩).engine =
      ⟨[⟨"c1", "k1", 1000, "paid", some "h1", none, some "T0"⟩], [⟨"k1", 975⟩], [], []⟩ :=
  (webhook_response_classification (5 / 2) "T" "" true (some ⟨some "h1", some true, none⟩)
      ⟨[⟨"c1", "k1", 1000, "paid", some "h1", none, some "T0"⟩], [⟨"k1", 975⟩], [], []⟩).2.2.2.1
    ⟨some "h1", some true, none⟩ "h1" ⟨"c1", "k1", 1000, "paid", some "h1", none, some "T0"⟩
    rfl rfl rfl rfl rfl

/-! ## Lemmas about the statuses each operation can write -/

theorem statusBound_refl (l : List ContributionRow) (S : List String) : StatusBound l l S :=
  List.forall₂_same.mpr (fun _ _ => Or.inl rfl)

theorem statusBound_updateRows (p : ContributionRow → Bool)
    (f : ContributionRow → ContributionRow) (l : List ContributionRow) (S : List String)
    (hf : ∀ a, (f a).payment_status = a.payment_status ∨ (f a).payment_status ∈ S) :
    StatusBound l (updateRows p f l) S := by
  unfold StatusBound updateRows
  rw [List.forall₂_map_right_iff]
  refine List.forall₂_same.mpr (fun a _ => ?_)
  by_cases hp : (p a) = true
  · rw [if_pos hp]
    exact hf a
  · rw [if_neg hp]
    exact Or.inl rfl

theorem uc_by_id_statusBound (cid st : String) (e : Engine) (S : List String) (hst : st ∈ S) :
    StatusBound e.contributions (update_contribution_status_by_id cid st e).contributions S := by
  unfold update_contribution_status_by_id
  exact statusBound_updateRows _ _ _ _ (fun a => Or.inr hst)

theorem uc_by_hash_statusBound (h st : String) (pa pre : Option String) (e : Engine)
    (S : List String) (hst : st ∈ S) :
    StatusBound e.contributions
      (update_contribution_status_by_payment_hash h st pa pre e).contributions S := by
  unfold update_contribution_status_by_payment_hash
  exact statusBound_updateRows _ _ _ _ (fun a => Or.inr hst)

theorem poll_iteration_statusBound (fee : Rat) (cid h kid : String) (t : Bool)
    (prov : Option LNbitsPaymentResponse) (now : String) (e : Engine) :
    StatusBound e.contributions (poll_iteration fee cid h kid t prov now e).contributions
      ["paid", "expired", "cancelled", "failed"] := by
  unfold poll_iteration
  split
  · rw [poll_cleanup_contributions]
    exact statusBound_refl _ _
  · split
    · rw [poll_cleanup_contributions]
      exact uc_by_id_statusBound cid "expired" e _ (by simp)
    · split
      · exact statusBound_refl _ _
      · dsimp only
        split
        · split
          · rw [poll_cleanup_contributions]
            exact statusBound_refl _ _
          · rw [poll_cleanup_contributions, uca_contributions]
            exact uc_by_hash_statusBound h "paid" _ _ e _ (by simp)
        · split
          · rename_i data hpaid hguard
            rw [poll_cleanup_contributions]
            refine uc_by_id_statusBound cid _ e _ ?_
            have hg := hguard
            simp only [Bool.or_eq_true, beq_iff_eq] at hg
            rcases hg with (hg | hg) | hg <;> simp [hg]
          · exact statusBound_refl _ _

theorem poll_error_fallback_statusBound (cid : String) (e : Engine) :
    StatusBound e.contributions (poll_error_fallback cid e).contributions
      ["paid", "expired", "cancelled", "failed"] := by
  unfold poll_error_fallback
  rw [poll_cleanup_contributions]
  exact uc_by_id_statusBound cid "failed" e _ (by simp)

theorem lnbits_webhook_statusBound (fee : Rat) (now sig : String) (sv : Bool)
    (body : Option WebhookPayload) (e : Engine) :
    StatusBound e.contributions (lnbits_webhook fee now sig sv body e).engine.contributions
      ["paid"] := by
  unfold lnbits_webhook
  split
  · exact statusBound_refl _ _
  · split
    · exact statusBound_refl _ _
    · split
      · exact statusBound_refl _ _
      · split
        · exact statusBound_refl _ _
        · split
          · exact statusBound_refl _ _
          · simp only [RouteOut.mk.injEq]
            rw [stop_polling_contributions]
            split
            · exact statusBound_updateRows _ _ _ _ (fun a => Or.inr (by simp))
            · exact statusBound_updateRows _ _ _ _ (fun a => Or.inr (by simp))

theorem handle_webhook_statusBound (fee : Rat) (h : String) (kid : Option String)
    (now : String) (e : Engine) :
    StatusBound e.contributions (handle_webhook_payment fee h kid now e).1.contributions
      ["paid"] := by
  unfold handle_webhook_payment
  split
  · exact statusBound_refl _ _
  · split
    · exact statusBound_refl _ _
    · rw [stop_polling_contributions, uca_contributions]
      exact uc_by_hash_statusBound h "paid" _ _ e _ (by simp)

theorem check_status_statusBound (fee : Rat) (now cid : String)
    (prov : Option LNbitsPaymentResponse) (e : Engine) :
    StatusBound e.contributions (check_contribution_status fee now cid prov e).1.contributions
      ["paid"] := by
  unfold check_contribution_status
  split
  · exact statusBound_refl _ _
  · split
    · split
      · exact statusBound_refl _ _
      · dsimp only
        split
        · rw [stop_polling_contributions]
          split
          · exact statusBound_updateRows _ _ _ _ (fun a => Or.inr (by simp))
          · exact statusBound_updateRows _ _ _ _ (fun a => Or.inr (by simp))
        · exact statusBound_refl _ _
    · exact statusBound_refl _ _

/-- Membership form of the `.single()` uniqueness fact. -/
theorem singleRow_unique_mem {α : Type} {p : α → Bool} {l : List α} {c : α}
    (h : singleRow p l = some c) : ∀ a ∈ l, p a = true → a = c := by
  intro a ha hp
  have hf := singleRow_eq_some_iff.mp h
  have hm : a ∈ l.filter p := List.mem_filter.mpr ⟨ha, hp⟩
  rw [hf] at hm
  simpa using hm

theorem cancel_row_relation (cid : String) (e : Engine) :
    List.Forall₂ (fun before after : ContributionRow =>
      after.payment_status = before.payment_status ∨
      (before.payment_status = "pending" ∧ after.payment_status = "cancelled"))
      e.contributions (cancel_contribution cid e).1.contributions := by
  unfold cancel_contribution
  split
  · exact List.forall₂_same.mpr (fun _ _ => Or.inl rfl)
  · rename_i c hc
    split
    · exact List.forall₂_same.mpr (fun _ _ => Or.inl rfl)
    · rename_i hpend
      have hcp : c.payment_status = "pending" := by
        rcases hb : (c.payment_status == "pending") with _ | _
        · rw [hb] at hpend
          simp at hpend
        · simpa using hb
      simp only []
      rw [stop_polling_contributions]
      unfold updateRows
      rw [List.forall₂_map_right_iff]
      refine List.forall₂_same.mpr (fun a ha => ?_)
      by_cases hp : (a.id == cid) = true
      · rw [if_pos hp]
        have : a = c := singleRow_unique_mem hc a ha hp
        exact Or.inr ⟨by rw [this]; exact hcp, rfl⟩
      · rw [if_neg hp]
        exact Or.inl rfl

/-- Counterexample to claim C2: terminal states other than `paid` are not
preserved.  A contribution already in the terminal state `expired` is
re-settled to `paid` (and the campaign credited) by the webhook handler,
whose idempotency guard checks only `payment_status == paid`. -/
theorem webhook_resettles_expired_cex :
    ((lnbits_webhook (5 / 2) "T" "" true (some ⟨some "h1", some true, none⟩)
        ⟨[⟨"c1", "k1", 1000, "expired", some "h1", none, none⟩],
         [⟨"k1", 0⟩], [], []⟩).engine.contributions.map (fun r => r.payment_status)) = ["paid"] ∧
    (([⟨"c1", "k1", 1000, "expired", some "h1", none, none⟩] :
        List ContributionRow).map (fun r => r.payment_status)) = ["expired"] := by
  exact ⟨rfl, rfl⟩

/-- Claim C2 as amended: no engine operation ever writes `pending` (each row
either keeps its status or gets a non-pending one); the webhook handlers,
the inline status check and cancel never change a `paid` row (their only
written status is `paid`, and cancel rewrites only the unique pending row it
looked up); and once a watcher's stop flag is set its poll step — the path
through which its timeout and error writes happen — leaves the store
untouched.  However, the webhook handlers guard only against `paid`, so the
terminal states `expired`, `failed` and `cancelled` are not preserved by
them (see the counterexample): terminal-state preservation holds for `paid`
but not for the other terminal states. -/
theorem status_transitions_amended :
    (∀ (fee : Rat) (cid h kid : String) (t : Bool) (prov : Option LNbitsPaymentResponse)
        (now : String) (e : Engine),
      StatusBound e.contributions (poll_iteration fee cid h kid t prov now e).contributions
        ["paid", "expired", "cancelled", "failed"]) ∧
    (∀ (cid : String) (e : Engine),
      StatusBound e.contributions (poll_error_fallback cid e).contributions
        ["paid", "expired", "cancelled", "failed"]) ∧
    (∀ (fee : Rat) (now sig : String) (sv : Bool) (body : Option WebhookPayload) (e : Engine),
      StatusBound e.contributions (lnbits_webhook fee now sig sv body e).engine.contributions
        ["paid"]) ∧
    (∀ (fee : Rat) (h : String) (kid : Option String) (now : String) (e : Engine),
      StatusBound e.contributions (handle_webhook_payment fee h kid now e).1.contributions
        ["paid"]) ∧
    (∀ (fee : Rat) (now cid : String) (prov : Option LNbitsPaymentResponse) (e : Engine),
      StatusBound e.contributions
        (check_contribution_status fee now cid prov e).1.contributions ["paid"]) ∧
    (∀ (cid : String) (e : Engine),
      List.Forall₂ (fun before after : ContributionRow =>
        after.payment_status = before.payment_status ∨
        (before.payment_status = "pending" ∧ after.payment_status = "cancelled"))
        e.contributions (cancel_contribution cid e).1.contributions) ∧
    (∀ (S : List String), "pending" ∉ S → ∀ (l l2 : List ContributionRow), StatusBound l l2 S →
      List.Forall₂ (fun before after : ContributionRow =>
        after.payment_status = "pending" → before.payment_status = "pending") l l2) ∧
    (∀ (S : List String), "paid" ∈ S → (∀ s ∈ S, s = "paid") →
      ∀ (l l2 : List ContributionRow), StatusBound l l2 S →
      List.Forall₂ (fun before after : ContributionRow =>
        before.payment_status = "paid" → after.payment_status = "paid") l l2) ∧
    (∀ (fee : Rat) (cid h kid : String) (t : Bool) (prov : Option LNbitsPaymentResponse)
        (now : String) (e : Engine),
      flag_of e cid = true →
      (poll_iteration fee cid h kid t prov now e).contributions = e.contributions ∧
      (poll_iteration fee cid h kid t prov now e).campaigns = e.campaigns) := by
  refine ⟨poll_iteration_statusBound, poll_error_fallback_statusBound,
    lnbits_webhook_statusBound, handle_webhook_statusBound, check_status_statusBound,
    cancel_row_relation, ?_, ?_, ?_⟩
  · intro S hS l l2 hb
    refine List.Forall₂.imp (fun a b hr => ?_) hb
    intro hpend
    rcases hr with heq | hmem
    · rw [← heq]
      exact hpend
    · exact absurd (hpend ▸ hmem) hS
  · intro S hpaid honly l l2 hb
    refine List.Forall₂.imp (fun a b hr => ?_) hb
    intro hap
    rcases hr with heq | hmem
    · rw [heq]
      exact hap
    · exact honly _ hmem
  · intro fee cid h kid t prov now e hflag
    unfold poll_iteration
    rw [hflag]
    simp only [if_true]
    exact ⟨poll_cleanup_contributions cid e, poll_cleanup_campaigns cid e⟩

/-- Witness for the amended C2: the statements instantiated on a concrete
one-row store for a watcher step (flag set, so the store is untouched) and
the generic no-pending-reentry and paid-preservation consequences on a
concrete status bound. -/
theorem status_transitions_amended_witness :
    (poll_iteration (5 / 2) "c1" "h1" "k1" true none "T"
        ⟨[⟨"c1", "k1", 1000, "paid", some "h1", none, some "T0"⟩], [⟨"k1", 975⟩],
         ["c1"], [("c1", true)]⟩).contributions =
      [⟨"c1", "k1", 1000, "paid", some "h1", none, some "T0"⟩] ∧
    (poll_iteration (5 / 2) "c1" "h1" "k1" true none "T"
        ⟨[⟨"c1", "k1", 1000, "paid", some "h1", none, some "T0"⟩], [⟨"k1", 975⟩],
         ["c1"], [("c1", true)]⟩).campaigns = [⟨"k1", 975⟩] ∧
    List.Forall₂ (fun before after : ContributionRow =>
        after.payment_status = "pending" → before.payment_status = "pending")
      [⟨"c1", "k1", 1000, "pending", some "h1", none, none⟩]
      [⟨"c1", "k1", 1000, "paid", some "h1", none, some "T"⟩] ∧
    List.Forall₂ (fun before after : ContributionRow =>
        before.payment_status = "paid" → after.payment_status = "paid")
      [⟨"c1", "k1", 1000, "paid", some "h1", none, some "T"⟩]
      [⟨"c1", "k1", 1000, "paid", some "h1", none, some "T"⟩] := by
  refine ⟨(status_transitions_amended.2.2.2.2.2.2.2.2 (5 / 2) "c1" "h1" "k1" true none "T"
      ⟨[⟨"c1", "k1", 1000, "paid", some "h1", none, some "T0"⟩], [⟨"k1", 975⟩],
       ["c1"], [("c1", true)]⟩ rfl).1,
    (status_transitions_amended.2.2.2.2.2.2.2.2 (5 / 2) "c1" "h1" "k1" true none "T"
      ⟨[⟨"c1", "k1", 1000, "paid", some "h1", none, some "T0"⟩], [⟨"k1", 975⟩],
       ["c1"], [("c1", true)]⟩ rfl).2,
    status_transitions_amended.2.2.2.2.2.2.1 ["paid"] (by decide) _ _
      (List.Forall₂.cons (Or.inr (by decide)) List.Forall₂.nil),
    status_transitions_amended.2.2.2.2.2.2.2.1 ["paid"] (by decide) (by decide) _ _
      (List.Forall₂.cons (Or.inl rfl) List.Forall₂.nil)⟩

/-! ## Settlement idempotence (claim C1) -/

theorem singleRow_pred {α : Type} {p : α → Bool} {l : List α} {c : α}
    (h : singleRow p l = some c) : p c = true := by
  have hf := singleRow_eq_some_iff.mp h
  have hm : c ∈ l.filter p := by
    rw [hf]
    simp
  exact (List.mem_filter.mp hm).2

theorem singleRow_updateRows_some {α : Type} {p q : α → Bool} {f : α → α} {l : List α} {c : α}
    (hq : ∀ a, q (if p a then f a else a) = q a)
    (hc : singleRow q l = some c) :
    singleRow q (updateRows p f l) = some (if p c then f c else c) := by
  rw [singleRow_updateRows p q f l hq, hc]
  rfl

theorem find?_updateRows_some {α : Type} {p q : α → Bool} {f : α → α} {l : List α} {c : α}
    (hq : ∀ a, q (if p a then f a else a) = q a)
    (hc : l.find? q = some c) :
    (updateRows p f l).find? q = some (if p c then f c else c) := by
  rw [find?_updateRows p q f l hq, hc]
  rfl

/-- The three contribution lookups the settlement paths use, after a
rewrite of the rows that changes neither ids nor payment hashes. -/
theorem settled_contributions_lookups (p : ContributionRow → Bool)
    (f : ContributionRow → ContributionRow) (l : List ContributionRow)
    (c : ContributionRow) (cid h : String)
    (hq1 : ∀ a, ((if p a then f a else a).id == cid) = (a.id == cid))
    (hq2 : ∀ a, ((if p a then f a else a).payment_hash == some h) = (a.payment_hash == some h))
    (H1 : singleRow (fun r => r.id == cid) l = some c)
    (H2 : singleRow (fun r => r.payment_hash == some h) l = some c)
    (H3 : l.find? (fun r => r.payment_hash == some h) = some c)
    (hpc : p c = true) :
    singleRow (fun r => r.id == cid) (updateRows p f l) = some (f c) ∧
    singleRow (fun r => r.payment_hash == some h) (updateRows p f l) = some (f c) ∧
    (updateRows p f l).find? (fun r => r.payment_hash == some h) = some (f c) := by
  refine ⟨?_, ?_, ?_⟩
  · rw [singleRow_updateRows_some hq1 H1, if_pos hpc]
  · rw [singleRow_updateRows_some hq2 H2, if_pos hpc]
  · rw [find?_updateRows_some hq2 H3, if_pos hpc]

/-- The campaign lookup after the inline campaign-credit write of the
webhook and status-check routes. -/
theorem inline_campaign_lookup (kid : String) (l : List CampaignRow) (k : CampaignRow)
    (amt : Rat) (hk : singleRow (fun x => x.id == kid) l = some k) :
    singleRow (fun x => x.id == kid)
      (updateRows (fun x => x.id == kid)
        (fun x => { x with current_amount := amt }) l) =
      some { k with current_amount := amt } := by
  have hq : ∀ a : CampaignRow,
      ((if (a.id == kid) = true then ({ a with current_amount := amt } : CampaignRow)
        else a).id == kid) = (a.id == kid) := by
    intro a
    by_cases hp : (a.id == kid) = true
    · rw [if_pos hp]
    · rw [if_neg hp]
  rw [singleRow_updateRows_some hq hk, if_pos (singleRow_pred hk)]

/-- `SettledState` only reads the store, so it transports along store
equality. -/
theorem settledState_of_store_eq {cid h campid : String} {target : Rat} {e e2 : Engine}
    (hc : e2.contributions = e.contributions) (hk : e2.campaigns = e.campaigns)
    (hs : SettledState cid h campid target e) : SettledState cid h campid target e2 := by
  obtain ⟨cp, a1, a2, a3, a4, kp, b1, b2⟩ := hs
  refine ⟨cp, ?_, ?_, ?_, a4, kp, ?_, b2⟩
  · rw [hc]
    exact a1
  · rw [hc]
    exact a2
  · rw [hc]
    exact a3
  · rw [hk]
    exact b1

/-- Settlement via the contributions-route webhook establishes the settled
state and answers 200. -/
theorem lnbits_webhook_settles (fee : Rat) (now sig : String) (sv : Bool)
    (pre : Option String) (h : String) (e : Engine) (c : ContributionRow) (k : CampaignRow)
    (H1 : singleRow (fun r => r.id == c.id) e.contributions = some c)
    (H2 : singleRow (fun r => r.payment_hash == some h) e.contributions = some c)
    (H3 : e.contributions.find? (fun r => r.payment_hash == some h) = some c)
    (H4 : c.payment_status = "pending")
    (H6 : singleRow (fun x => x.id == c.campaign_id) e.campaigns = some k) :
    SettledState c.id h c.campaign_id (k.current_amount + creator_amount fee c.amount)
      (lnbits_webhook fee now sig sv (some ⟨some h, some true, pre⟩) e).engine ∧
    (lnbits_webhook fee now sig sv (some ⟨some h, some true, pre⟩) e).resp.status = 200 := by
  have hnp : (c.payment_status == "paid") = false := by simp [H4]
  have hred : (lnbits_webhook fee now sig sv (some ⟨some h, some true, pre⟩) e).engine =
      stop_polling c.id
        ⟨updateRows (fun r => r.id == c.id)
            (fun r => { r with payment_status := "paid", paid_at := some now,
                               transaction_id := pre }) e.contributions,
         updateRows (fun x => x.id == c.campaign_id)
            (fun x => { x with current_amount :=
              k.current_amount + creator_amount fee c.amount }) e.campaigns,
         e.pollingThreads, e.stopFlags⟩ ∧
      (lnbits_webhook fee now sig sv (some ⟨some h, some true, pre⟩) e).resp.status = 200 := by
    simp only [lnbits_webhook, Option.getD_some, Bool.true_eq_false, if_false]
    rw [H3]
    simp only [hnp, Bool.false_eq_true, if_false]
    rw [H6]
    exact ⟨rfl, trivial⟩
  refine ⟨?_, hred.2⟩
  rw [hred.1]
  have hlook := settled_contributions_lookups (fun r => r.id == c.id)
    (fun r => { r with payment_status := "paid", paid_at := some now, transaction_id := pre })
    e.contributions c c.id h
    (fun a => by by_cases hp : (a.id == c.id) = true
                 · rw [if_pos hp]
                 · rw [if_neg hp])
    (fun a => by by_cases hp : (a.id == c.id) = true
                 · rw [if_pos hp]
                 · rw [if_neg hp])
    H1 H2 H3 (by simp)
  refine ⟨{ c with payment_status := "paid", paid_at := some now, transaction_id := pre },
    ?_, ?_, ?_, rfl,
    { k with current_amount := k.current_amount + creator_amount fee c.amount }, ?_, rfl⟩
  · rw [stop_polling_contributions]
    exact hlook.1
  · rw [stop_polling_contributions]
    exact hlook.2.1
  · rw [stop_polling_contributions]
    exact hlook.2.2
  · rw [stop_polling_campaigns]
    exact inline_campaign_lookup c.campaign_id e.campaigns k _ H6

/-- Settlement via `handle_webhook_payment` establishes the settled state
and returns `True`. -/
theorem handle_webhook_settles (fee : Rat) (now h : String) (e : Engine)
    (c : ContributionRow) (k : CampaignRow)
    (H1 : singleRow (fun r => r.id == c.id) e.contributions = some c)
    (H2 : singleRow (fun r => r.payment_hash == some h) e.contributions = some c)
    (H3 : e.contributions.find? (fun r => r.payment_hash == some h) = some c)
    (H4 : c.payment_status = "pending")
    (H6 : singleRow (fun x => x.id == c.campaign_id) e.campaigns = some k) :
    SettledState c.id h c.campaign_id (k.current_amount + creator_amount fee c.amount)
      (handle_webhook_payment fee h none now e).1 ∧
    (handle_webhook_payment fee h none now e).2 = true := by
  have hnp : (c.payment_status == "paid") = false := by simp [H4]
  have hphash : (c.payment_hash == some h) = true :=
    @singleRow_pred ContributionRow (fun r => r.payment_hash == some h) e.contributions c H2
  have hlook := settled_contributions_lookups (fun r => r.payment_hash == some h)
    (fun r => { r with payment_status := "paid", paid_at := some now, transaction_id := r.transaction_id })
    e.contributions c c.id h
    (fun a => by by_cases hp : (a.payment_hash == some h) = true
                 · rw [if_pos hp]
                 · rw [if_neg hp])
    (fun a => by by_cases hp : (a.payment_hash == some h) = true
                 · rw [if_pos hp]
                 · rw [if_neg hp])
    H1 H2 H3 hphash
  have hred : handle_webhook_payment fee h none now e =
      (stop_polling c.id
        (update_campaign_amount fee c.id c.campaign_id
          (update_contribution_status_by_payment_hash h "paid" (some now) none e)), true) := by
    unfold handle_webhook_payment
    rw [H2]
    simp only [hnp, Bool.false_eq_true, if_false, Option.getD_none]
  rw [hred]
  have he1c : (update_contribution_status_by_payment_hash h "paid" (some now) none
      e).contributions =
      updateRows (fun r => r.payment_hash == some h)
        (fun r => { r with payment_status := "paid", paid_at := some now, transaction_id := r.transaction_id })
        e.contributions := rfl
  have hid : singleRow (fun r => r.id == c.id)
      (update_contribution_status_by_payment_hash h "paid" (some now) none e).contributions =
      some { c with payment_status := "paid", paid_at := some now, transaction_id := c.transaction_id } := by
    rw [he1c]
    exact hlook.1
  have hcamp := uca_campaigns_eq fee c.id c.campaign_id
    (update_contribution_status_by_payment_hash h "paid" (some now) none e)
    { c with payment_status := "paid", paid_at := some now, transaction_id := c.transaction_id } k hid
    (by rw [uc_by_hash_campaigns]; exact H6)
  refine ⟨⟨{ c with payment_status := "paid", paid_at := some now, transaction_id := c.transaction_id },
    ?_, ?_, ?_, rfl,
    { k with current_amount := k.current_amount + creator_amount fee c.amount }, ?_, rfl⟩, rfl⟩
  · rw [stop_polling_contributions, uca_contributions, he1c]
    exact hlook.1
  · rw [stop_polling_contributions, uca_contributions, he1c]
    exact hlook.2.1
  · rw [stop_polling_contributions, uca_contributions, he1c]
    exact hlook.2.2
  · rw [stop_polling_campaigns, hcamp, uc_by_hash_campaigns]
    exact inline_campaign_lookup c.campaign_id e.campaigns k _ H6

/-- Settlement via the watcher poll step establishes the settled state. -/
theorem poll_iteration_settles (fee : Rat) (now h : String)
    (data : LNbitsPaymentResponse) (e : Engine) (c : ContributionRow) (k : CampaignRow)
    (H1 : singleRow (fun r => r.id == c.id) e.contributions = some c)
    (H2 : singleRow (fun r => r.payment_hash == some h) e.contributions = some c)
    (H3 : e.contributions.find? (fun r => r.payment_hash == some h) = some c)
    (H4 : c.payment_status = "pending")
    (H6 : singleRow (fun x => x.id == c.campaign_id) e.campaigns = some k)
    (H7 : data.paid = some true)
    (H8 : flag_of e c.id = false) :
    SettledState c.id h c.campaign_id (k.current_amount + creator_amount fee c.amount)
      (poll_iteration fee c.id h c.campaign_id false (some data) now e) := by
  have hnp : (c.payment_status == "paid") = false := by simp [H4]
  have hphash : (c.payment_hash == some h) = true :=
    @singleRow_pred ContributionRow (fun r => r.payment_hash == some h) e.contributions c H2
  have hstpaid : (check_invoice_status data).paid = true := by
    simp [check_invoice_status, H7]
  have hap : already_paid h e = false := by
    unfold already_paid
    rw [H2]
    simp [hnp]
  have hlook := settled_contributions_lookups (fun r => r.payment_hash == some h)
    (fun r => { r with payment_status := "paid", paid_at := some now, transaction_id := (match (check_invoice_status data).preimage with | some pre => some pre | none => r.transaction_id) })
    e.contributions c c.id h
    (fun a => by by_cases hp : (a.payment_hash == some h) = true
                 · rw [if_pos hp]
                 · rw [if_neg hp])
    (fun a => by by_cases hp : (a.payment_hash == some h) = true
                 · rw [if_pos hp]
                 · rw [if_neg hp])
    H1 H2 H3 hphash
  have hred : poll_iteration fee c.id h c.campaign_id false (some data) now e =
      poll_cleanup c.id
        (update_campaign_amount fee c.id c.campaign_id
          (update_contribution_status_by_payment_hash h "paid" (some now)
            (check_invoice_status data).preimage e)) := by
    unfold poll_iteration
    rw [H8]
    simp only [Bool.false_eq_true, if_false]
    rw [hstpaid, hap]
    simp only [Bool.false_eq_true, if_false, if_true]
  rw [hred]
  have he1c : (update_contribution_status_by_payment_hash h "paid" (some now)
      (check_invoice_status data).preimage e).contributions =
      updateRows (fun r => r.payment_hash == some h)
        (fun r => { r with payment_status := "paid", paid_at := some now, transaction_id := (match (check_invoice_status data).preimage with | some pre => some pre | none => r.transaction_id) })
        e.contributions := rfl
  have hid : singleRow (fun r => r.id == c.id)
      (update_contribution_status_by_payment_hash h "paid" (some now)
        (check_invoice_status data).preimage e).contributions =
      some { c with payment_status := "paid", paid_at := some now, transaction_id := (match (check_invoice_status data).preimage with | some pre => some pre | none => c.transaction_id) } := by
    rw [he1c]
    exact hlook.1
  have hcamp := uca_campaigns_eq fee c.id c.campaign_id
    (update_contribution_status_by_payment_hash h "paid" (some now)
      (check_invoice_status data).preimage e)
    { c with payment_status := "paid", paid_at := some now, transaction_id := (match (check_invoice_status data).preimage with | some pre => some pre | none => c.transaction_id) } k hid
    (by rw [uc_by_hash_campaigns]; exact H6)
  refine ⟨{ c with payment_status := "paid", paid_at := some now, transaction_id := (match (check_invoice_status data).preimage with | some pre => some pre | none => c.transaction_id) },
    ?_, ?_, ?_, rfl,
    { k with current_amount := k.current_amount + creator_amount fee c.amount }, ?_, rfl⟩
  · rw [poll_cleanup_contributions, uca_contributions, he1c]
    exact hlook.1
  · rw [poll_cleanup_contributions, uca_contributions, he1c]
    exact hlook.2.1
  · rw [poll_cleanup_contributions, uca_contributions, he1c]
    exact hlook.2.2
  · rw [poll_cleanup_campaigns, hcamp, uc_by_hash_campaigns]
    exact inline_campaign_lookup c.campaign_id e.campaigns k _ H6

/-- Settlement via the inline status check establishes the settled state
and answers 200. -/
theorem check_status_settles (fee : Rat) (now h : String)
    (data : LNbitsPaymentResponse) (e : Engine) (c : ContributionRow) (k : CampaignRow)
    (H1 : singleRow (fun r => r.id == c.id) e.contributions = some c)
    (H2 : singleRow (fun r => r.payment_hash == some h) e.contributions = some c)
    (H3 : e.contributions.find? (fun r => r.payment_hash == some h) = some c)
    (H4 : c.payment_status = "pending")
    (H5 : c.payment_hash = some h)
    (H6 : singleRow (fun x => x.id == c.campaign_id) e.campaigns = some k)
    (H7 : data.paid = some true) :
    SettledState c.id h c.campaign_id (k.current_amount + creator_amount fee c.amount)
      (check_contribution_status fee now c.id (some data) e).1 ∧
    (check_contribution_status fee now c.id (some data) e).2.status = 200 := by
  have hpend : (c.payment_status == "pending") = true := by simp [H4]
  have hnp : (c.payment_status == "paid") = false := by simp [H4]
  have hsome : c.payment_hash.isSome = true := by rw [H5]; rfl
  have hstpaid : (check_invoice_status data).paid = true := by
    simp [check_invoice_status, H7]
  have hred : (check_contribution_status fee now c.id (some data) e).1 =
      stop_polling c.id
        ⟨updateRows (fun r => r.id == c.id)
            (fun r => { r with payment_status := "paid", paid_at := some now,
                               transaction_id := (check_invoice_status data).preimage })
            e.contributions,
         updateRows (fun x => x.id == c.campaign_id)
            (fun x => { x with current_amount :=
              k.current_amount + creator_amount fee c.amount }) e.campaigns,
         e.pollingThreads, e.stopFlags⟩ ∧
      (check_contribution_status fee now c.id (some data) e).2.status = 200 := by
    unfold check_contribution_status
    rw [H1]
    simp only [hpend, hsome, Bool.and_self, if_true]
    rw [hstpaid, hnp]
    simp only [Bool.not_false, Bool.and_self, if_true]
    rw [H6]
    exact ⟨rfl, trivial⟩
  refine ⟨?_, hred.2⟩
  rw [hred.1]
  have hlook := settled_contributions_lookups (fun r => r.id == c.id)
    (fun r => { r with payment_status := "paid", paid_at := some now,
                       transaction_id := (check_invoice_status data).preimage })
    e.contributions c c.id h
    (fun a => by by_cases hp : (a.id == c.id) = true
                 · rw [if_pos hp]
                 · rw [if_neg hp])
    (fun a => by by_cases hp : (a.id == c.id) = true
                 · rw [if_pos hp]
                 · rw [if_neg hp])
    H1 H2 H3 (by simp)
  refine ⟨{ c with payment_status := "paid", paid_at := some now, transaction_id := (check_invoice_status data).preimage },
    ?_, ?_, ?_, rfl,
    { k with current_amount := k.current_amount + creator_amount fee c.amount }, ?_, rfl⟩
  · rw [stop_polling_contributions]
    exact hlook.1
  · rw [stop_polling_contributions]
    exact hlook.2.1
  · rw [stop_polling_contributions]
    exact hlook.2.2
  · rw [stop_polling_campaigns]
    exact inline_campaign_lookup c.campaign_id e.campaigns k _ H6

/-- Once settled, the webhook route acknowledges with 200 and writes nothing. -/
theorem lnbits_webhook_noop (fee : Rat) (now sig : String) (sv : Bool) (pre : Option String)
    (cid h campid : String) (target : Rat) (e : Engine)
    (hs : SettledState cid h campid target e) :
    (lnbits_webhook fee now sig sv (some ⟨some h, some true, pre⟩) e).engine = e ∧
    (lnbits_webhook fee now sig sv (some ⟨some h, some true, pre⟩) e).resp.status = 200 := by
  obtain ⟨cp, _, _, hFind, hPaid, _⟩ := hs
  have hb : (cp.payment_status == "paid") = true := by simp [hPaid]
  simp only [lnbits_webhook, Option.getD_some, Bool.true_eq_false, if_false]
  rw [hFind]
  simp [hb]

/-- Once settled, `handle_webhook_payment` returns `True` and writes nothing. -/
theorem handle_webhook_noop (fee : Rat) (now : String) (kidarg : Option String)
    (cid h campid : String) (target : Rat) (e : Engine)
    (hs : SettledState cid h campid target e) :
    (handle_webhook_payment fee h kidarg now e).1 = e ∧
    (handle_webhook_payment fee h kidarg now e).2 = true := by
  obtain ⟨cp, _, hHash, _, hPaid, _⟩ := hs
  have hb : (cp.payment_status == "paid") = true := by simp [hPaid]
  unfold handle_webhook_payment
  rw [hHash]
  simp [hb]

/-- Once settled, the watcher poll step never credits again: whether its
stop flag is already set or it re-checks `_already_paid`, it leaves the
store untouched. -/
theorem poll_iteration_noop (fee : Rat) (cid h kid campid now : String)
    (data : LNbitsPaymentResponse) (target : Rat) (e : Engine)
    (H7 : data.paid = some true)
    (hs : SettledState cid h campid target e) :
    (poll_iteration fee cid h kid false (some data) now e).contributions = e.contributions ∧
    (poll_iteration fee cid h kid false (some data) now e).campaigns = e.campaigns := by
  obtain ⟨cp, _, hHash, _, hPaid, _⟩ := hs
  have hb : (cp.payment_status == "paid") = true := by simp [hPaid]
  have hstpaid : (check_invoice_status data).paid = true := by
    simp [check_invoice_status, H7]
  have hap : already_paid h e = true := by
    unfold already_paid
    rw [hHash]
    simp [hb]
  unfold poll_iteration
  by_cases hf : flag_of e cid = true
  · rw [hf]
    simp only [if_true]
    exact ⟨poll_cleanup_contributions cid e, poll_cleanup_campaigns cid e⟩
  · have hf2 : flag_of e cid = false := by simpa using hf
    rw [hf2]
    simp only [Bool.false_eq_true, if_false]
    rw [hstpaid, hap]
    simp only [Bool.false_eq_true, if_false, if_true]
    exact ⟨poll_cleanup_contributions cid e, poll_cleanup_campaigns cid e⟩

/-- Once settled, the inline status check reports paid with 200 and writes
nothing. -/
theorem check_status_noop (fee : Rat) (now cid h campid : String)
    (prov : Option LNbitsPaymentResponse) (target : Rat) (e : Engine)
    (hs : SettledState cid h campid target e) :
    (check_contribution_status fee now cid prov e).1 = e ∧
    (check_contribution_status fee now cid prov e).2.status = 200 := by
  obtain ⟨cp, hId, _, _, hPaid, _⟩ := hs
  have hb : (cp.payment_status == "pending") = false := by simp [hPaid]
  unfold check_contribution_status
  rw [hId]
  simp [hb]

/-- Any of the four settlement paths, run first on the pending state,
settles the contribution: campaign credited once, contribution paid,
success reported. -/
theorem settle_ops_settle (fee : Rat) (now h : String) (e : Engine) (c : ContributionRow)
    (k : CampaignRow) (data : LNbitsPaymentResponse) (pre : Option String)
    (H1 : singleRow (fun r => r.id == c.id) e.contributions = some c)
    (H2 : singleRow (fun r => r.payment_hash == some h) e.contributions = some c)
    (H3 : e.contributions.find? (fun r => r.payment_hash == some h) = some c)
    (H4 : c.payment_status = "pending")
    (H5 : c.payment_hash = some h)
    (H6 : singleRow (fun x => x.id == c.campaign_id) e.campaigns = some k)
    (H7 : data.paid = some true)
    (H8 : flag_of e c.id = false) :
    ∀ i : Fin (settle_ops fee c.id h c.campaign_id data pre now).length,
      SettledState c.id h c.campaign_id (k.current_amount + creator_amount fee c.amount)
        (((settle_ops fee c.id h c.campaign_id data pre now).get i) e).1 ∧
      (((settle_ops fee c.id h c.campaign_id data pre now).get i) e).2 = true := by
  intro i
  fin_cases i
  · have hset := lnbits_webhook_settles fee now "" true pre h e c k H1 H2 H3 H4 H6
    refine ⟨hset.1, ?_⟩
    show ((lnbits_webhook fee now "" true (some ⟨some h, some true, pre⟩) e).resp.status ==
      200) = true
    rw [hset.2]
    rfl
  · exact handle_webhook_settles fee now h e c k H1 H2 H3 H4 H6
  · exact ⟨poll_iteration_settles fee now h data e c k H1 H2 H3 H4 H6 H7 H8, rfl⟩
  · have hset := check_status_settles fee now h data e c k H1 H2 H3 H4 H5 H6 H7
    refine ⟨hset.1, ?_⟩
    show ((check_contribution_status fee now c.id (some data) e).2.status == 200) = true
    rw [hset.2]
    rfl

/-- Any of the four settlement paths, run on an already-settled state, is a
store no-op that still reports success. -/
theorem settle_ops_noop (fee : Rat) (now h cid campid : String)
    (data : LNbitsPaymentResponse) (pre : Option String) (target : Rat) (e : Engine)
    (H7 : data.paid = some true)
    (hs : SettledState cid h campid target e) :
    ∀ j : Fin (settle_ops fee cid h campid data pre now).length,
      (((settle_ops fee cid h campid data pre now).get j) e).1.contributions =
        e.contributions ∧
      (((settle_ops fee cid h campid data pre now).get j) e).1.campaigns = e.campaigns ∧
      (((settle_ops fee cid h campid data pre now).get j) e).2 = true := by
  intro j
  fin_cases j
  · have hno := lnbits_webhook_noop fee now "" true pre cid h campid target e hs
    refine ⟨?_, ?_, ?_⟩
    · show (lnbits_webhook fee now "" true (some ⟨some h, some true, pre⟩)
        e).engine.contributions = e.contributions
      rw [hno.1]
    · show (lnbits_webhook fee now "" true (some ⟨some h, some true, pre⟩)
        e).engine.campaigns = e.campaigns
      rw [hno.1]
    · show ((lnbits_webhook fee now "" true (some ⟨some h, some true, pre⟩)
        e).resp.status == 200) = true
      rw [hno.2]
      rfl
  · have hno := handle_webhook_noop fee now none cid h campid target e hs
    refine ⟨?_, ?_, ?_⟩
    · show (handle_webhook_payment fee h none now e).1.contributions = e.contributions
      rw [hno.1]
    · show (handle_webhook_payment fee h none now e).1.campaigns = e.campaigns
      rw [hno.1]
    · exact hno.2
  · have hno := poll_iteration_noop fee cid h campid campid now data target e H7 hs
    exact ⟨hno.1, hno.2, rfl⟩
  · have hno := check_status_noop fee now cid h campid (some data) target e hs
    refine ⟨?_, ?_, ?_⟩
    · show (check_contribution_status fee now cid (some data) e).1.contributions =
        e.contributions
      rw [hno.1]
    · show (check_contribution_status fee now cid (some data) e).1.campaigns = e.campaigns
      rw [hno.1]
    · show ((check_contribution_status fee now cid (some data) e).2.status == 200) = true
      rw [hno.2]
      rfl

/-- Claim C1: settlement is idempotent across the webhook route,
`handle_webhook_payment`, the watcher poll step and the inline status check.
From a store in which the contribution exists, is pending and is uniquely
keyed, running any settlement path settles it exactly once — the campaign
total becomes `current_amount + creator_amount` — reporting success, and
running any second path on the result observes `payment_status == paid`,
changes nothing in the store, still reports success, and leaves the settled
state (so the credit is applied exactly once in every order). -/
theorem settlement_idempotent (fee : Rat) (now h : String) (e : Engine)
    (c : ContributionRow) (k : CampaignRow) (data : LNbitsPaymentResponse)
    (pre : Option String)
    (H1 : singleRow (fun r => r.id == c.id) e.contributions = some c)
    (H2 : singleRow (fun r => r.payment_hash == some h) e.contributions = some c)
    (H3 : e.contributions.find? (fun r => r.payment_hash == some h) = some c)
    (H4 : c.payment_status = "pending")
    (H5 : c.payment_hash = some h)
    (H6 : singleRow (fun x => x.id == c.campaign_id) e.campaigns = some k)
    (H7 : data.paid = some true)
    (H8 : flag_of e c.id = false)
    (i j : Fin (settle_ops fee c.id h c.campaign_id data pre now).length) :
    SettledState c.id h c.campaign_id (k.current_amount + creator_amount fee c.amount)
      (((settle_ops fee c.id h c.campaign_id data pre now).get i) e).1 ∧
    (((settle_ops fee c.id h c.campaign_id data pre now).get i) e).2 = true ∧
    (((settle_ops fee c.id h c.campaign_id data pre now).get j)
        (((settle_ops fee c.id h c.campaign_id data pre now).get i) e).1).1.contributions =
      (((settle_ops fee c.id h c.campaign_id data pre now).get i) e).1.contributions ∧
    (((settle_ops fee c.id h c.campaign_id data pre now).get j)
        (((settle_ops fee c.id h c.campaign_id data pre now).get i) e).1).1.campaigns =
      (((settle_ops fee c.id h c.campaign_id data pre now).get i) e).1.campaigns ∧
    (((settle_ops fee c.id h c.campaign_id data pre now).get j)
        (((settle_ops fee c.id h c.campaign_id data pre now).get i) e).1).2 = true ∧
    SettledState c.id h c.campaign_id (k.current_amount + creator_amount fee c.amount)
      (((settle_ops fee c.id h c.campaign_id data pre now).get j)
        (((settle_ops fee c.id h c.campaign_id data pre now).get i) e).1).1 := by
  have hset := settle_ops_settle fee now h e c k data pre H1 H2 H3 H4 H5 H6 H7 H8 i
  have hnoop := settle_ops_noop fee now h c.id c.campaign_id data pre
    (k.current_amount + creator_amount fee c.amount)
    (((settle_ops fee c.id h c.campaign_id data pre now).get i) e).1 H7 hset.1 j
  exact ⟨hset.1, hset.2, hnoop.1, hnoop.2.1, hnoop.2.2,
    settledState_of_store_eq hnoop.1 hnoop.2.1 hset.1⟩

/-- Witness for C1: webhook settlement followed by a watcher poll on a
concrete one-contribution store; the poll is a no-op and the campaign holds
exactly one creator amount. -/
theorem settlement_idempotent_witness :
    SettledState "c1" "h1" "k1"
      ((0 : Rat) + creator_amount (5 / 2) 1000)
      (((settle_ops (5 / 2) "c1" "h1" "k1" ⟨some true, some false, none, some "pre"⟩
          (some "pre") "T").get ⟨0, by decide⟩)
        ⟨[⟨"c1", "k1", 1000, "pending", some "h1", none, none⟩], [⟨"k1", 0⟩],
         ["c1"], [("c1", false)]⟩).1 ∧
    (((settle_ops (5 / 2) "c1" "h1" "k1" ⟨some true, some false, none, some "pre"⟩
          (some "pre") "T").get ⟨0, by decide⟩)
        ⟨[⟨"c1", "k1", 1000, "pending", some "h1", none, none⟩], [⟨"k1", 0⟩],
         ["c1"], [("c1", false)]⟩).2 = true ∧
    (((settle_ops (5 / 2) "c1" "h1" "k1" ⟨some true, some false, none, some "pre"⟩
          (some "pre") "T").get ⟨2, by decide⟩)
        (((settle_ops (5 / 2) "c1" "h1" "k1" ⟨some true, some false, none, some "pre"⟩
            (some "pre") "T").get ⟨0, by decide⟩)
          ⟨[⟨"c1", "k1", 1000, "pending", some "h1", none, none⟩], [⟨"k1", 0⟩],
           ["c1"], [("c1", false)]⟩).1).1.contributions =
      (((settle_ops (5 / 2) "c1" "h1" "k1" ⟨some true, some false, none, some "pre"⟩
          (some "pre") "T").get ⟨0, by decide⟩)
        ⟨[⟨"c1", "k1", 1000, "pending", some "h1", none, none⟩], [⟨"k1", 0⟩],
         ["c1"], [("c1", false)]⟩).1.contributions ∧
    (((settle_ops (5 / 2) "c1" "h1" "k1" ⟨some true, some false, none, some "pre"⟩
          (some "pre") "T").get ⟨2, by decide⟩)
        (((settle_ops (5 / 2) "c1" "h1" "k1" ⟨some true, some false, none, some "pre"⟩
            (some "pre") "T").get ⟨0, by decide⟩)
          ⟨[⟨"c1", "k1", 1000, "pending", some "h1", none, none⟩], [⟨"k1", 0⟩],
           ["c1"], [("c1", false)]⟩).1).1.campaigns =
      (((settle_ops (5 / 2) "c1" "h1" "k1" ⟨some true, some false, none, some "pre"⟩
          (some "pre") "T").get ⟨0, by decide⟩)
        ⟨[⟨"c1", "k1", 1000, "pending", some "h1", none, none⟩], [⟨"k1", 0⟩],
         ["c1"], [("c1", false)]⟩).1.campaigns := by
  have hmain := settlement_idempotent (5 / 2) "T" "h1"
    ⟨[⟨"c1", "k1", 1000, "pending", some "h1", none, none⟩], [⟨"k1", 0⟩],
     ["c1"], [("c1", false)]⟩
    ⟨"c1", "k1", 1000, "pending", some "h1", none, none⟩ ⟨"k1", 0⟩
    ⟨some true, some false, none, some "pre"⟩ (some "pre")
    rfl rfl rfl rfl rfl rfl rfl rfl ⟨0, by decide⟩ ⟨2, by decide⟩
  exact ⟨hmain.1, hmain.2.1, hmain.2.2.1, hmain.2.2.2.1⟩

end CrowdPay
